import Mathlib

/-!
Verification of the claude_code_bridge_multi request-routing daemon against
its specification.

The Python sources are shallowly embedded: strings are Lean `String`s
manipulated through their underlying `List Char`, regular expressions are
translated into explicit executable matchers, wall-clock time is an `Int`
count of milliseconds,
and external effects (terminal backends, file system, the log reader)
are supplied as explicit inputs.  Each embedded definition mirrors one
Python function of the repository and keeps its name where Lean allows.

Modelling notes that apply throughout:
* Python `str.splitlines` recognises the universal newline set; the
  embedding implements the same boundary set over `List Char`.
* Python `\s`, `str.strip` and `str.rstrip` additionally match some
  non-ASCII whitespace; the embedding uses the ASCII whitespace set
  (space, tab, newline, carriage return, vertical tab, form feed).
  All concrete inputs used in witnesses and counterexamples are ASCII.
* Python `\d` matches non-ASCII decimal digits as well; the embedding
  uses ASCII digits.
-/

namespace CCB

/-! ## Character classes and basic string utilities (Python semantics) -/

/-- ASCII part of Python whitespace (used by `str.strip`, `str.rstrip`, regex `\s`). -/
def isPyWs (c : Char) : Bool :=
  c = ' ' || c = '\t' || c = '\n' || c = '\r' || c = '\x0b' || c = '\x0c'

/-- ASCII decimal digit, the executable core of regex `\d`. -/
def isDigitCh (c : Char) : Bool :=
  '0' ≤ c && c ≤ '9'

/-- Python `str.splitlines` line-boundary characters (besides the CRLF pair). -/
def isLineBoundary (c : Char) : Bool :=
  c = '\n' || c = '\r' || c = '\x0b' || c = '\x0c' ||
  c = '\x1c' || c = '\x1d' || c = '\x1e' || c = '\x85' ||
  c = '\u2028' || c = '\u2029'

/-- Worker for `splitlines`: `acc` holds the current line reversed; a
carriage return consumes a directly following line feed. -/
def slAux : List Char → List Char → List (List Char)
  | [], acc => if acc.isEmpty then [] else [acc.reverse]
  | [c], acc =>
    if isLineBoundary c then [acc.reverse] else [(c :: acc).reverse]
  | c :: c2 :: rest, acc =>
    if c = '\r' then
      (if c2 = '\n' then acc.reverse :: slAux rest []
       else acc.reverse :: slAux (c2 :: rest) [])
    else if isLineBoundary c then acc.reverse :: slAux (c2 :: rest) []
    else slAux (c2 :: rest) (c :: acc)

/-- Python `text.splitlines()` on the character list. -/
def pyLinesL (l : List Char) : List (List Char) :=
  slAux l []

/-- Python `text.splitlines()`.  The sources immediately apply
`ln.rstrip("\n")` to each line, which is a no-op because split lines
contain no newline, so it is omitted. -/
def pyLines (s : String) : List String :=
  (pyLinesL s.data).map fun l => ⟨l⟩

/-- Python `str.rstrip()` (no argument: strip trailing whitespace). -/
def rstripL (l : List Char) : List Char :=
  (l.reverse.dropWhile isPyWs).reverse

/-- Python `str.strip()`. -/
def stripL (l : List Char) : List Char :=
  rstripL (l.dropWhile isPyWs)

/-- String-level Python `str.rstrip()`. -/
def pyRstrip (s : String) : String :=
  ⟨rstripL s.data⟩

/-- String-level Python `str.strip()`. -/
def pyStrip (s : String) : String :=
  ⟨stripL s.data⟩

/-- A line whose `strip()` is empty (blank line). -/
def isBlankLine (s : String) : Bool :=
  (stripL s.data).isEmpty

/-- Python `"\n".join(lines)` on character lists. -/
def joinNLl : List (List Char) → List Char
  | [] => []
  | [x] => x
  | x :: y :: ys => x ++ '\n' :: joinNLl (y :: ys)

/-- Python `"\n".join(lines)`. -/
def joinNL : List String → String
  | [] => ""
  | [x] => x
  | x :: y :: ys => x ++ "\n" ++ joinNL (y :: ys)

/-- Case-insensitive character equality (regex `re.IGNORECASE`). -/
def ciEq (a b : Char) : Bool :=
  a.toLower = b.toLower

/-- Case-insensitive list-prefix test. -/
def ciPref : List Char → List Char → Bool
  | [], _ => true
  | _ :: _, [] => false
  | a :: p, b :: l => ciEq a b && ciPref p l

/-- Substring containment, Python `sub in s` on character lists. -/
def containsSub (sub : List Char) : List Char → Bool
  | [] => sub.isEmpty
  | c :: rest => sub.isPrefixOf (c :: rest) || containsSub sub rest

/-- Python `sub in s`. -/
def strContains (s sub : String) : Bool :=
  containsSub sub.data s.data

/-! ## ccb_protocol.py -/

/-- Characters of the literal `CCB_DONE:`. -/
def ccbDoneLit : List Char :=
  "CCB_DONE:".data

/-- Parse regex `\d\{8\}-\d\{6\}-\d\{3\}-\d+-\d+` (braces escaped here only for
the comment): exactly `n` digits, returning the rest. -/
def takeDigits : Nat → List Char → Option (List Char)
  | 0, l => some l
  | _ + 1, [] => none
  | n + 1, c :: rest => if isDigitCh c then takeDigits n rest else none

/-- One or more digits, greedily, returning the rest. -/
def takeDigits1 : List Char → Option (List Char)
  | [] => none
  | c :: rest =>
    if isDigitCh c then some ((c :: rest).dropWhile isDigitCh) else none

/-- Expect a literal dash. -/
def expectDash : List Char → Option (List Char)
  | [] => none
  | c :: r => if c = '-' then some r else none

/-- Parse a well-formed request id (the literal regex of spec §6, eight digits,
dash, six digits, dash, three digits, dash, digits, dash, digits), returning
the remaining characters.  Greediness needs no backtracking because a dash is
not a digit. -/
def parseReqId (l : List Char) : Option (List Char) :=
  (takeDigits 8 l).bind fun r1 =>
  (expectDash r1).bind fun r2 =>
  (takeDigits 6 r2).bind fun r3 =>
  (expectDash r3).bind fun r4 =>
  (takeDigits 3 r4).bind fun r5 =>
  (expectDash r5).bind fun r6 =>
  (takeDigits1 r6).bind fun r7 =>
  (expectDash r7).bind fun r8 =>
  takeDigits1 r8

/-- A full-match well-formed request id. -/
def wfReqIdL (l : List Char) : Bool :=
  decide (parseReqId l = some [])

/-- Well-formed request id (spec §6 request-id format). -/
def wfReqId (s : String) : Bool :=
  wfReqIdL s.data

/-- Matcher for `_ANY_CCB_DONE_LINE_RE`: whitespace, `CCB_DONE:`, whitespace,
a well-formed request id, trailing whitespace. -/
def isAnyCcbDoneLineL (l : List Char) : Bool :=
  let l1 := l.dropWhile isPyWs
  if ccbDoneLit.isPrefixOf l1 then
    match parseReqId ((l1.drop 9).dropWhile isPyWs) with
    | some rest => rest.all isPyWs
    | none => false
  else false

/-- String-level `_ANY_CCB_DONE_LINE_RE` full match. -/
def isAnyCcbDoneLine (s : String) : Bool :=
  isAnyCcbDoneLineL s.data

/-- Tail matcher for whitespace-star, literal `r`, whitespace-star,
end of line, case-insensitively (each step either matches `r` here or
consumes one whitespace character). -/
def tmTailCI (r : List Char) : List Char → Bool
  | [] => r.isEmpty
  | c :: t =>
    (ciPref r (c :: t) && ((c :: t).drop r.length).all isPyWs) ||
    (isPyWs c && tmTailCI r t)

/-- Tail matcher for whitespace-star, literal `r`, whitespace-star,
end of line, case-sensitively. -/
def tmTailCS (r : List Char) : List Char → Bool
  | [] => r.isEmpty
  | c :: t =>
    (r.isPrefixOf (c :: t) && ((c :: t).drop r.length).all isPyWs) ||
    (isPyWs c && tmTailCS r t)

/-- Matcher for the per-request target pattern of `extract_reply_for_req`
(the regex built with `re.escape(req_id)` and `re.IGNORECASE`). -/
def targetMatchCIL (reqId l : List Char) : Bool :=
  let l1 := l.dropWhile isPyWs
  ciPref ccbDoneLit l1 && tmTailCI reqId (l1.drop 9)

/-- String-level target match. -/
def targetMatchCI (reqId s : String) : Bool :=
  targetMatchCIL reqId.data s.data

/-- Matcher for `done_line_re(req_id)` (case-sensitive). -/
def doneLineMatchL (reqId l : List Char) : Bool :=
  let l1 := l.dropWhile isPyWs
  ccbDoneLit.isPrefixOf l1 && tmTailCS reqId (l1.drop 9)

/-- Character usable inside a generic `*_DONE` tag (regex class of uppercase
letters, digits and underscore). -/
def isTagChar (c : Char) : Bool :=
  ('A' ≤ c && c ≤ 'Z') || isDigitCh c || c = '_'

/-- True when the input, after whitespace, starts with a colon. -/
def startsColonAfterWs (l : List Char) : Bool :=
  match l.dropWhile isPyWs with
  | ':' :: _ => true
  | _ => false

/-- Matcher for `_TRAILING_DONE_TAG_RE`: an uppercase token ending in
`_DONE` that is not a `CCB_DONE:` marker, optionally followed by a colon
and a well-formed request id.  The greedy token run is deterministic
because tag characters can neither continue the optional colon part nor
end the line. -/
def trailingDoneTagL (l : List Char) : Bool :=
  let l1 := l.dropWhile isPyWs
  if "CCB_DONE".data.isPrefixOf l1 && startsColonAfterWs (l1.drop 8) then
    false
  else
    match l1 with
    | [] => false
    | c :: _ =>
      if 'A' ≤ c && c ≤ 'Z' then
        let run := l1.takeWhile isTagChar
        let rest := l1.drop run.length
        "_DONE".data.isSuffixOf run && decide (6 ≤ run.length) &&
          (rest.all isPyWs ||
            (match rest.dropWhile isPyWs with
             | ':' :: r2 =>
               (match parseReqId (r2.dropWhile isPyWs) with
                | some r3 => r3.all isPyWs
                | none => false)
             | _ => false))
      else false

/-- Embedding of `_is_trailing_noise_line`. -/
def isNoiseLineL (l : List Char) : Bool :=
  (stripL l).isEmpty || trailingDoneTagL l

/-- Embedding of `is_done_text` from `ccb_protocol.py`.  The Claude adapter
imports `is_done_text` from `laskd_protocol`, which is not under `src/`;
per spec §4.1 the codec contract is shared by all providers and
`ccb_protocol.py` implements exactly these operations, so this definition
also serves as the model of the `laskd_protocol` import (modelled from the
spec in that role). -/
def is_done_text (text reqId : String) : Bool :=
  let lines := (pyLinesL text.data).map rstripL
  match lines.reverse.dropWhile isNoiseLineL with
  | [] => false
  | l :: _ => doneLineMatchL reqId.data l

/-- Drop trailing noise lines, the `while lines and _is_trailing_noise_line`
loop of `strip_done_text`. -/
def dropTrailNoise (lines : List (List Char)) : List (List Char) :=
  (lines.reverse.dropWhile isNoiseLineL).reverse

/-- Embedding of `strip_done_text` from `ccb_protocol.py`. -/
def strip_done_text (text reqId : String) : String :=
  let lines := pyLinesL text.data
  if lines.isEmpty then "" else
  let l1 := dropTrailNoise lines
  let l2 :=
    match l1.getLast? with
    | some last => if doneLineMatchL reqId.data last then l1.dropLast else l1
    | none => l1
  let l3 := dropTrailNoise l2
  ⟨rstripL (joinNLl l3)⟩

/-- Embedding of `extract_reply_for_req` from `ccb_protocol.py` (the same
function that the Claude adapter imports from the missing `laskd_protocol`
module; see `is_done_text`). -/
def extract_reply_for_req (text reqId : String) : String :=
  let lines := pyLines text
  if lines.isEmpty then "" else
  let doneIdxs := (List.range lines.length).filter fun i =>
    isAnyCcbDoneLine (lines.getD i "")
  let targetIdxs := doneIdxs.filter fun i =>
    targetMatchCI reqId (lines.getD i "")
  match targetIdxs.getLast? with
  | none => if doneIdxs.isEmpty then strip_done_text text reqId else ""
  | some ti =>
    let start :=
      match (doneIdxs.filter fun i => decide (i < ti)).getLast? with
      | some p => p + 1
      | none => 0
    let segment := (lines.drop start).take (ti - start)
    let seg2 := segment.dropWhile isBlankLine
    let seg3 := (seg2.reverse.dropWhile isBlankLine).reverse
    pyRstrip (joinNL seg3)

/-- Embedding of `wrap_codex_prompt` from `ccb_protocol.py`. -/
def wrap_codex_prompt (message reqId : String) : String :=
  "CCB_REQ_ID: " ++ reqId ++ "\n\n" ++ pyRstrip message ++ "\n\n" ++
  "IMPORTANT:\n" ++
  "- Reply normally.\n" ++
  "- Reply normally, in English.\n" ++
  "- End your reply with this exact final line (verbatim, on its own line):\n" ++
  "CCB_DONE: " ++ reqId ++ "\n"

end CCB

namespace CCB

/-! ## Derived line-list combinators used by the claim statements -/

/-- Lines strictly between positions `a` and `b` (Python `lines[a+1:b]`). -/
def segBetween (lines : List String) (a b : Nat) : List String :=
  (lines.drop (a + 1)).take (b - (a + 1))

/-- Trim leading and trailing blank lines, the two `while` loops of
`extract_reply_for_req`. -/
def trimBlankLines (l : List String) : List String :=
  ((l.dropWhile isBlankLine).reverse.dropWhile isBlankLine).reverse

/-- The claim-side reading of "X with leading and trailing blank lines
trimmed": split into lines, trim blank lines at both ends, rejoin.  Unlike
the code, no final `rstrip` is applied. -/
def spec_trimBlankLines (s : String) : String :=
  joinNL (trimBlankLines (pyLines s))

/-! ## String helpers for the Claude adapter post-processing -/

/-- Python `str.lower()` (per-character; locale special cases unused here). -/
def pyLower (s : String) : String :=
  ⟨s.data.map Char.toLower⟩

/-- Python `s.startswith(pre)`. -/
def pyStartsWith (s pre : String) : Bool :=
  pre.data.isPrefixOf s.data

/-- Python `str.lstrip()`. -/
def pyLstrip (s : String) : String :=
  ⟨s.data.dropWhile isPyWs⟩

/-- Worker for `s.split(sep, 1)`. -/
def pySplit1Aux (sep : Char) : List Char → List Char → List Char × List Char
  | [], acc => (acc.reverse, [])
  | c :: rest, acc =>
    if c = sep then (acc.reverse, rest) else pySplit1Aux sep rest (c :: acc)

/-- Python `s.split(sep, 1)` for a character separator: the part before the
first occurrence and the part after it (the callers only destructure it when
the separator is present). -/
def pySplit1 (s : String) (sep : Char) : String × String :=
  let p := pySplit1Aux sep s.data []
  (⟨p.1⟩, ⟨p.2⟩)

/-- Worker for `s.split(sep, 1)[-1]`. -/
def pySplitLast1Aux (sep : Char) : List Char → Option (List Char)
  | [] => none
  | c :: rest => if c = sep then some rest else pySplitLast1Aux sep rest

/-- Python `s.split(sep, 1)[-1]`: the part after the first separator, or the
whole string when the separator is absent. -/
def pySplitLast1 (s : String) (sep : Char) : String :=
  match pySplitLast1Aux sep s.data with
  | some rest => ⟨rest⟩
  | none => s

/-- Worker for Python `str.split()`: whitespace-separated words. -/
def wordsAux : List Char → List Char → List (List Char)
  | [], cur => if cur.isEmpty then [] else [cur.reverse]
  | c :: rest, cur =>
    if isPyWs c then
      (if cur.isEmpty then wordsAux rest [] else cur.reverse :: wordsAux rest [])
    else wordsAux rest (c :: cur)

/-- Python `s.split()` (split on whitespace, dropping empties). -/
def pyWords (s : String) : List String :=
  (wordsAux s.data []).map fun l => ⟨l⟩

/-- Python `s.find(c)` for a single character, as an option. -/
def findChIdx (sep : Char) : List Char → Option Nat
  | [] => none
  | c :: rest => if c = sep then some 0 else (findChIdx sep rest).map (· + 1)

/-- Worker for Python `s.count(sub)` (non-overlapping); `skip` counts
characters still covered by the previous match. -/
def countSubAux (sub : List Char) : List Char → Nat → Nat
  | [], _ => 0
  | _ :: rest, skip + 1 => countSubAux sub rest skip
  | c :: rest, 0 =>
    if sub.isPrefixOf (c :: rest) then 1 + countSubAux sub rest (sub.length - 1)
    else countSubAux sub rest 0

/-- Python `s.count(sub)` for nonempty `sub`. -/
def countSub (s sub : String) : Nat :=
  countSubAux sub.data s.data 0

/-- Python `s.strip(c)` for a single strip character. -/
def pyCharStrip (s : String) (c : Char) : String :=
  ⟨((s.data.dropWhile (· = c)).reverse.dropWhile (· = c)).reverse⟩

/-- Worker for Python `s.split(sep)` on a character (keeps empty parts). -/
def splitChAux (sep : Char) : List Char → List Char → List (List Char)
  | [], cur => [cur.reverse]
  | c :: rest, cur =>
    if c = sep then cur.reverse :: splitChAux sep rest []
    else splitChAux sep rest (c :: cur)

/-- Python `s.split(sep)` for a character separator. -/
def pySplitCh (s : String) (sep : Char) : List String :=
  (splitChAux sep s.data []).map fun l => ⟨l⟩

/-- Python `s.replace(c, "")`: remove every occurrence of a character. -/
def pyRemoveCh (s : String) (c : Char) : String :=
  ⟨s.data.filter fun x => !(decide (x = c))⟩

/-- Python `sep.join(parts)`. -/
def joinSep (sep : String) : List String → String
  | [] => ""
  | [x] => x
  | x :: y :: ys => x ++ sep ++ joinSep sep (y :: ys)

/-! ## Claude adapter reply post-processing (claude.py) -/

/-- The `_BOX_TABLE_CHARS` set. -/
def isBoxChar (c : Char) : Bool :=
  c = '┌' || c = '┬' || c = '┐' || c = '├' || c = '┼' || c = '┤' ||
  c = '└' || c = '┴' || c = '┘' || c = '│' || c = '─'

/-- Embedding of `_is_box_table_line`. -/
def _is_box_table_line (line : String) : Bool :=
  line.data.any isBoxChar

/-- Embedding of `_wants_triplet_fences`. -/
def _wants_triplet_fences (message : String) : Bool :=
  let msg := pyLower message
  if strContains msg "python" && strContains msg "json" && strContains msg "yaml" then
    strContains msg "code block" || strContains message "代码块"
  else false

/-- Embedding of `_wants_bash_fence`. -/
def _wants_bash_fence (message : String) : Bool :=
  let msg := pyLower message
  if strContains msg "bash" then
    strContains msg "code block" || strContains message "代码块"
  else false

/-- Embedding of `_wants_text_fence`. -/
def _wants_text_fence (message : String) : Bool :=
  let msg := pyLower message
  if strContains msg "```text" || strContains msg "text" then
    strContains msg "code block" || strContains message "代码块"
  else false

/-- Embedding of `_wants_release_notes`. -/
def _wants_release_notes (message : String) : Bool :=
  let msg := pyLower message
  if !(strContains msg "release notes") then false
  else
    strContains msg "summary" && strContains msg "item" &&
    strContains msg "risk" && strContains msg "action"

/-- Embedding of `_looks_like_release_notes_reply`. -/
def _looks_like_release_notes_reply (reply : String) : Bool :=
  if reply.data.isEmpty then false
  else
    let text := pyLower reply
    strContains text "release notes" && strContains text "summary:"

/-- Embedding of `_wants_abc_sections`. -/
def _wants_abc_sections (message : String) : Bool :=
  let msg := pyLower message
  strContains msg "## a" && strContains msg "## b" && strContains msg "## c"

/-- Embedding of `_wants_section_10`. -/
def _wants_section_10 (message : String) : Bool :=
  let msg := pyLower message
  strContains msg "### section" && strContains msg "1..10"

/-- Embedding of `_has_fence`. -/
def _has_fence (reply : String) : Bool :=
  strContains reply "```"

/-- Embedding of `_should_fix_box_table`. -/
def _should_fix_box_table (message reply : String) : Bool :=
  if reply.data.isEmpty then false
  else if !_is_box_table_line reply then false
  else
    let msg := pyLower message
    if !(strContains msg "markdown") then false
    else strContains msg "table" || strContains message "表格"

/-- The block-scanning loop of `_convert_box_table_to_markdown`: the first
box line starts the block, blank lines extend it, the first other line ends
it. -/
def boxScan : List String → Nat → Option Nat → Option Nat → Option Nat × Option Nat
  | [], _, st, en => (st, en)
  | ln :: rest, i, st, en =>
    if _is_box_table_line ln then
      boxScan rest (i + 1) (if st.isNone then some i else st) (some i)
    else
      match st with
      | some _ =>
        if (pyStrip ln).data.isEmpty then boxScan rest (i + 1) st (some i)
        else (st, en)
      | none => boxScan rest (i + 1) none en

/-- One parsed box row: the stripped cells between box separators. -/
def boxRowCells (ln : String) : List String :=
  (pySplitCh (pyCharStrip (pyStrip ln) '│') '│').map pyStrip

/-- The row-collection loop of `_convert_box_table_to_markdown`. -/
def boxRows (block : List String) : List (List String) :=
  block.foldr
    (fun ln acc =>
      if !(strContains ln "│") then acc
      else if (pyStrip ln).data.isEmpty then acc
      else
        let parts := boxRowCells ln
        if parts.isEmpty || parts.all (fun p => p.data.isEmpty) then acc
        else parts :: acc)
    []

/-- Embedding of `_convert_box_table_to_markdown`. -/
def _convert_box_table_to_markdown (text : String) : String :=
  let lines := pyLines text
  if lines.isEmpty then text else
  match boxScan lines 0 none none with
  | (some start, some en) =>
    let block := (lines.drop start).take (en + 1 - start)
    match boxRows block with
    | [] => text
    | header :: rest =>
      let colCount := header.length
      if colCount = 0 then text else
      let sep : List String := List.replicate colCount "---"
      let out := ("| " ++ joinSep " | " header ++ " |") ::
        ("| " ++ joinSep " | " sep ++ " |") ::
        rest.map (fun row =>
          "| " ++ joinSep " | " ((row ++ List.replicate colCount "").take colCount) ++ " |")
      pyRstrip (joinNL (lines.take start ++ out ++ lines.drop (en + 1)))
  | _ => text

/-- Emit the fenced blocks of `_fix_triplet_fences`, each segment running to
the start of the next. -/
def tripletBlocks (lines : List String) : List (String × Nat) → List String
  | [] => []
  | (tag, start) :: rest =>
    let e := match rest with
      | (_, s2) :: _ => s2
      | [] => lines.length
    let seg := (lines.drop start).take (e - start)
    let text := pyStrip (joinNL (trimBlankLines seg))
    if text.data.isEmpty then tripletBlocks lines rest
    else ("```" ++ tag ++ "\n" ++ text ++ "\n```") :: tripletBlocks lines rest

/-- Stable insertion into a list sorted by the second component (used for
the `segments.sort` call of `_fix_triplet_fences`; Python's `sort` is
stable). -/
def insSorted (x : String × Nat) : List (String × Nat) → List (String × Nat)
  | [] => [x]
  | y :: ys => if y.2 ≤ x.2 then y :: insSorted x ys else x :: y :: ys

/-- Stable sort by the second component. -/
def sortBySnd (l : List (String × Nat)) : List (String × Nat) :=
  l.foldl (fun acc x => insSorted x acc) []

/-- Embedding of `_fix_triplet_fences`. -/
def _fix_triplet_fences (reply : String) : String :=
  let lines0 := pyLines reply
  let keep :=
    if _has_fence reply then
      if countSub reply "```python" = 1 && countSub reply "```json" = 1 &&
          countSub reply "```yaml" = 1 then none
      else some (lines0.filter fun ln => !(pyStartsWith (pyStrip ln) "```"))
    else some lines0
  match keep with
  | none => reply
  | some lines =>
    let pyStart := lines.findIdx? fun ln => pyStartsWith (pyLstrip ln) "def "
    let jsonStart := lines.findIdx? fun ln =>
      pyStartsWith (pyLstrip ln) "\x7b" || pyStartsWith (pyLstrip ln) "["
    let yamlStart := lines.findIdx? fun ln =>
      pyStartsWith (pyStrip ln) "name:" || pyStartsWith (pyStrip ln) "version:"
    let segments :=
      (match pyStart with | some i => [("python", i)] | none => []) ++
      (match jsonStart with | some i => [("json", i)] | none => []) ++
      (match yamlStart with | some i => [("yaml", i)] | none => [])
    let segments := sortBySnd segments
    if segments.isEmpty then reply
    else pyRstrip (joinSep "\n\n" (tripletBlocks lines segments))

/-- Embedding of `_fix_bash_fence`. -/
def _fix_bash_fence (reply : String) : String :=
  if _has_fence reply then reply else
  let lines := pyLines reply
  if lines.isEmpty then reply else
  match lines.findIdx? (fun ln => !(pyStrip ln).data.isEmpty) with
  | none => reply
  | some start =>
    match lines.drop start with
    | [] => reply
    | f :: rs =>
      let script := f :: rs.takeWhile fun ln =>
        !(pyStrip ln).data.isEmpty &&
        !(pyStartsWith (pyLstrip ln) "[" || pyStartsWith (pyLstrip ln) "\x7b")
      let rest := (lines.drop (start + script.length)).dropWhile fun ln =>
        (pyStrip ln).data.isEmpty
      let out := ("```bash" :: script ++ ["```"]) ++
        (if rest.isEmpty then [] else "" :: rest)
      pyRstrip (joinNL out)

/-- Embedding of `_fix_text_fence`. -/
def _fix_text_fence (reply : String) : String :=
  if _has_fence reply then reply else
  let body := pyStrip reply
  if body.data.isEmpty then reply
  else "```text\n" ++ body ++ "\n```"

/-- The section scan of `_fix_abc_sections`, restructured as one pass with
the current section state and the number of bullets already kept for it; the
emitted sequence equals the Python nested loops. -/
def abcAux : List String → Bool → Nat → List String
  | [], _, _ => []
  | ln :: rest, inSec, taken =>
    let l := pyStrip ln
    if pyStartsWith l "## " then l :: abcAux rest true 0
    else if inSec && pyStartsWith l "- " && taken < 2 then
      l :: abcAux rest inSec (taken + 1)
    else abcAux rest inSec taken

/-- Embedding of `_fix_abc_sections`. -/
def _fix_abc_sections (reply : String) : String :=
  let lines := (pyLines reply).map fun ln =>
    if pyStrip ln = "A" || pyStrip ln = "B" || pyStrip ln = "C" then
      "## " ++ pyStrip ln
    else ln
  pyRstrip (joinNL (abcAux lines false 0))

/-- The separator loop of `_split_to_two_lines`. -/
def splitSepTry (text : String) : List Char → Option (String × String)
  | [] => none
  | sep :: more =>
    match findChIdx sep text.data with
    | some idx =>
      if idx + 1 < text.data.length then
        let second := pyStrip ⟨text.data.drop (idx + 1)⟩
        if second.data.isEmpty then splitSepTry text more
        else some (pyStrip ⟨text.data.take (idx + 1)⟩, second)
      else splitSepTry text more
    | none => splitSepTry text more

/-- Embedding of `_split_to_two_lines`. -/
def _split_to_two_lines (text : String) : String × String :=
  if text.data.isEmpty then ("", "") else
  match splitSepTry text ['。', '.', '！', '!', '？', '?'] with
  | some p => p
  | none =>
    let words := pyWords text
    if 2 ≤ words.length then
      let mid := words.length / 2
      (pyStrip (joinSep " " (words.take mid)), pyStrip (joinSep " " (words.drop mid)))
    else
      let mid := max 1 (text.data.length / 2)
      (pyStrip ⟨text.data.take mid⟩, pyStrip ⟨text.data.drop mid⟩)

/-- The tail of the section-header regex after the optional hashes:
`Section`, some whitespace, digits, end of line (case-insensitive). -/
def secTail (l : List Char) : Option String :=
  if ciPref "Section".data l then
    match l.drop 7 with
    | c :: rest =>
      if isPyWs c then
        let l3 := rest.dropWhile isPyWs
        let digits := l3.takeWhile isDigitCh
        if !digits.isEmpty && (l3.drop digits.length).isEmpty then some ⟨digits⟩
        else none
      else none
    | [] => none
  else none

/-- Matcher for the `Section <n>` header regex of `_fix_section_10` (an
optional `###` with trailing whitespace, then `Section`, whitespace and the
captured number). -/
def parseSectionHeader (s : String) : Option String :=
  let l := s.data
  match (if "###".data.isPrefixOf l then secTail ((l.drop 3).dropWhile isPyWs) else none) with
  | some d => some d
  | none => secTail l

/-- The description block following a section header. -/
def sec10Desc (desc : List String) : List String :=
  match desc with
  | [] => ["", ""]
  | [d] =>
    let p := _split_to_two_lines d
    [p.1, p.2]
  | d1 :: d2 :: _ => [d1, d2]

/-- The outer loop of `_fix_section_10`; the fuel bounds the number of
iterations, which never exceeds the number of lines. -/
def sec10Loop : Nat → List String → List String
  | 0, _ => []
  | _ + 1, [] => []
  | fuel + 1, ln :: rest =>
    match parseSectionHeader (pyStrip ln) with
    | some num =>
      let seg := rest.takeWhile fun x => (parseSectionHeader (pyStrip x)).isNone
      let desc := (seg.map pyStrip).filter fun x => !x.data.isEmpty
      ("### Section " ++ num) :: (sec10Desc desc ++ sec10Loop fuel (rest.drop seg.length))
    | none => sec10Loop fuel rest

/-- Embedding of `_fix_section_10`. -/
def _fix_section_10 (reply : String) : String :=
  let lines := pyLines reply
  pyRstrip (joinNL (sec10Loop lines.length lines))

/-- Matcher for the numbered-item regex (digits then a dot or closing
parenthesis, as a prefix of the line). -/
def isNumberedLine (ln : String) : Bool :=
  let ds := ln.data.takeWhile isDigitCh
  if ds.isEmpty then false else
  match ln.data.drop ds.length with
  | c :: _ => c = '.' || c = ')'
  | [] => false

/-- A markdown table separator row (after removing pipes and stripping, only
dashes, colons and spaces remain). -/
def isSepRow (ln : String) : Bool :=
  (pyStrip (pyRemoveCh ln '|')).data.all fun c => c = '-' || c = ':' || c = ' '

/-- Embedding of `_parse_table_rows` inside `_fix_release_notes`. -/
def _parse_table_rows (lines : List String) : List (String × String × String) :=
  lines.foldr
    (fun ln acc =>
      if !(pyStartsWith (pyStrip ln) "|") then acc
      else if isSepRow ln then acc
      else
        match (pySplitCh (pyCharStrip (pyStrip ln) '|') '|').map pyStrip with
        | c0 :: c1 :: c2 :: _ =>
          if pyLower c0 = "item" && pyLower c1 = "risk" then acc
          else (c0, c1, c2) :: acc
        | _ => acc)
    []

/-- The `Item:`/`Risk:`/`Action:` accumulation loop of
`_fix_release_notes`; a row is appended when an `Action:` line closes a
nonempty triple. -/
def iraAux : List String → String → String → List (String × String × String)
  | [], _, _ => []
  | ln :: rest, item, risk =>
    let low := pyLower ln
    if pyStartsWith low "item:" then iraAux rest (pyStrip (pySplit1 ln ':').2) risk
    else if pyStartsWith low "risk:" then iraAux rest item (pyStrip (pySplit1 ln ':').2)
    else if pyStartsWith low "action:" then
      let action := pyStrip (pySplit1 ln ':').2
      if !(item.data.isEmpty && risk.data.isEmpty && action.data.isEmpty) then
        (item, risk, action) :: iraAux rest "" ""
      else iraAux rest "" ""
    else iraAux rest item risk

/-- Python `row[0] or row[1] or row[2]`: the first nonempty field. -/
def rowFirst (r : String × String × String) : String :=
  if !r.1.data.isEmpty then r.1
  else if !(r.2.1).data.isEmpty then r.2.1
  else r.2.2

/-- Embedding of `_fix_release_notes`. -/
def _fix_release_notes (reply : String) : String :=
  let raw_lines := (pyLines reply).map pyRstrip
  let stripped_lines := (raw_lines.map pyStrip).filter fun ln => !ln.data.isEmpty
  let summary1 :=
    match stripped_lines.find? (fun ln => pyStartsWith (pyLower ln) "summary:") with
    | some ln => ln
    | none =>
      match stripped_lines.find? (fun ln => !(pyLower ln = "release notes")) with
      | some ln => "Summary: " ++ ln
      | none => "Summary:"
  let summary_line :=
    if pyStartsWith (pyLower summary1) "summary:" then
      let pr := pySplit1 summary1 ':'
      let rest_words := pyWords (pyStrip pr.2)
      let rest := if 20 < rest_words.length then joinSep " " (rest_words.take 20) else pr.2
      pyRstrip (pr.1 ++ ": " ++ rest)
    else
      let words := pyWords summary1
      if 21 < words.length then joinSep " " (words.take 21) else summary1
  let numbered0 := (stripped_lines.filter isNumberedLine).take 4
  let table_lines0 := raw_lines.filter fun ln =>
    pyStartsWith (pyStrip ln) "|" && strContains ln "|"
  let tl_rows :=
    if !table_lines0.isEmpty then (table_lines0, _parse_table_rows table_lines0)
    else
      let rows := iraAux stripped_lines "" ""
      if !rows.isEmpty then
        ("| Item | Risk | Action |" :: "| --- | --- | --- |" ::
          rows.map (fun r => pyRstrip ("| " ++ r.1 ++ " | " ++ r.2.1 ++ " | " ++ r.2.2 ++ " |")),
         rows)
      else ([], rows)
  let numbered :=
    if numbered0.isEmpty then
      let candidates := stripped_lines.filter fun ln =>
        let low := pyLower ln
        !(low = "release notes") &&
        !(pyStartsWith low "summary:" || pyStartsWith low "item:" ||
          pyStartsWith low "risk:" || pyStartsWith low "action:") &&
        !(pyStartsWith (pyStrip ln) "|") &&
        !(isNumberedLine ln)
      let n1 :=
        if !candidates.isEmpty then
          ((candidates.take 4).enum).map fun p => toString (p.1 + 1) ++ ". " ++ p.2
        else if !(tl_rows.2).isEmpty then
          ((tl_rows.2.take 4).enum).filterMap fun p =>
            let v := pyStrip (rowFirst p.2)
            if v.data.isEmpty then none else some (toString (p.1 + 1) ++ ". " ++ v)
        else []
      if !n1.isEmpty && n1.length < 4 then
        let lastText := pyStrip (pySplitLast1 ((n1.getLast?).getD "") '.')
        n1 ++ ((List.range (4 - n1.length)).map fun k =>
          toString (n1.length + k + 1) ++ ". " ++ lastText)
      else n1
    else numbered0
  pyRstrip (joinNL ("### Release Notes" :: summary_line :: (numbered ++ tl_rows.1)))

/-- Embedding of `ClaudeAdapter._postprocess_reply` (the `req` argument is
represented by the request message, the only field it reads). -/
def _postprocess_reply (message reply : String) : String :=
  let f0 := reply
  let f1 := if _should_fix_box_table message f0 then _convert_box_table_to_markdown f0 else f0
  let f2 := if _wants_triplet_fences message then _fix_triplet_fences f1 else f1
  let f3 := if _wants_bash_fence message then _fix_bash_fence f2 else f2
  let f4 := if _wants_text_fence message then _fix_text_fence f3 else f3
  let f5 :=
    if _wants_release_notes message || _looks_like_release_notes_reply f4 then
      _fix_release_notes f4
    else f4
  let f6 := if _wants_abc_sections message then _fix_abc_sections f5 else f5
  if _wants_section_10 message then _fix_section_10 f6 else f6


/-! ## Request lifecycle model (claude.py handle_task / wait loop)

The structures `ProviderRequest`, `QueuedTask` and `ProviderResult` live in
`askd/adapters/base.py`, which is not part of the sources; they are modelled
from the spec (§3 Request, QueuedTask and Result) restricted to the fields
the Claude adapter reads.  Wall-clock time is an `Int` count of
milliseconds (the code's float seconds scaled by 1000: the 1.5 s anchor
grace is 1500, the 2.0 s anchor-collect grace is 2000, and `timeout_s` holds
the request timeout in the same unit); each loop iteration is
driven by one `WaitStep` input carrying the two `time.time()` samples the
iteration observes (`tA` at the top of the loop, also used for the pane
check, and `tB` after `wait_for_events`, used for the rebind and
anchor-collect checks), the pane liveness answer and the events returned by
the log reader.  Pane injection, logging and the reader internals are
external effects with no observable result and are not modelled. -/

/-- Modelled from the spec: §3 Request (fields read by the Claude adapter). -/
structure ProviderRequest where
  message : String
  timeout_s : Int
  no_wrap : Bool
  caller : String
  output_path : Option String
deriving DecidableEq

/-- Modelled from the spec: §3 QueuedTask pairs a request with the mutable
cancellation flag. -/
structure QueuedTask where
  request : ProviderRequest
  req_id : String
  cancelled : Bool
deriving DecidableEq

/-- Modelled from the spec: §3 Result, as constructed by the Claude
adapter. -/
structure ProviderResult where
  exit_code : Nat
  reply : String
  req_id : String
  session_key : String
  done_seen : Bool
  anchor_seen : Bool := false
  fallback_scan : Bool := false
  anchor_ms : Option Int := none
  done_ms : Option Int := none
deriving DecidableEq

/-- One polling iteration's inputs (see the section comment). -/
structure WaitStep where
  tA : Int
  paneAlive : Bool
  events : List (String × String)
  tB : Int
deriving DecidableEq

/-- The mutable locals of `_wait_for_response`. -/
structure WaitSt where
  chunks : List String
  anchorSeen : Bool
  anchorMs : Option Int
  fallbackScan : Bool
  rebounded : Bool
  lastPaneCheck : Int
deriving DecidableEq

/-- The for-loop over one batch of events: anchors on the user echo of our
request id, collects assistant text (subject to the anchor-collect grace),
and stops early when the accumulated text is done. -/
def processEvents (reqId : String) (collectGrace tB startedAt : Int) :
    List (String × String) → WaitSt → WaitSt × Bool × Option Int
  | [], st => (st, false, none)
  | (role, text) :: rest, st =>
    if role = "user" then
      let st :=
        if strContains text ("CCB_REQ_ID: " ++ reqId) then
          { st with anchorSeen := true,
                    anchorMs := match st.anchorMs with
                      | some a => some a
                      | none => some (tB - startedAt) }
        else st
      processEvents reqId collectGrace tB startedAt rest st
    else if role ≠ "assistant" then
      processEvents reqId collectGrace tB startedAt rest st
    else if !st.anchorSeen && tB < collectGrace then
      processEvents reqId collectGrace tB startedAt rest st
    else
      let st := { st with chunks := st.chunks ++ [text] }
      if is_done_text (joinNL st.chunks) reqId then (st, true, some (tB - startedAt))
      else processEvents reqId collectGrace tB startedAt rest st

/-- The final `ProviderResult` built after the wait loop exits. -/
def finalResult (reqId sessionKey : String) (st : WaitSt) (done : Bool)
    (doneMs : Option Int) : ProviderResult :=
  { exit_code := if done then 0 else 2,
    reply := extract_reply_for_req (joinNL st.chunks) reqId,
    req_id := reqId,
    session_key := sessionKey,
    done_seen := done,
    done_ms := doneMs,
    anchor_seen := st.anchorSeen,
    anchor_ms := st.anchorMs,
    fallback_scan := st.fallbackScan }

/-- The pane-death result of `_wait_for_response`. -/
def paneDiedResult (reqId sessionKey : String) (st : WaitSt) : ProviderResult :=
  { exit_code := 1,
    reply := "Claude pane died during request",
    req_id := reqId,
    session_key := sessionKey,
    done_seen := false,
    anchor_seen := st.anchorSeen,
    fallback_scan := st.fallbackScan,
    anchor_ms := st.anchorMs }

/-- Observable outcome of the wait loop, with ghost observations of the
execution: the number of iterations entered, the step indices at which the
permissive rebind ran, and whether the pane-death branch fired. -/
structure WaitOut where
  result : ProviderResult
  consumed : Nat
  rebinds : List Nat
  paneDied : Bool
deriving DecidableEq

/-- The top-of-loop deadline test (`remaining <= 0`). -/
def deadlineHit (deadline : Option Int) (t : Int) : Bool :=
  match deadline with
  | some d => decide (d - t ≤ 0)
  | none => false

/-- Update of `last_pane_check` when the pane check was due. -/
def paneAdjust (due : Bool) (s : WaitStep) (st : WaitSt) : WaitSt :=
  if due then { st with lastPaneCheck := s.tA } else st

/-- Embedding of the `while True` loop of `_wait_for_response`.  `ix` is the
index of the current step, `rb` the rebind indices so far; `none` means the
supplied step inputs ran out before the loop produced a result. -/
def waitLoop (reqId sessionKey : String) (startedAt : Int) (deadline : Option Int)
    (graceA collectGrace paneInterval : Int) :
    List WaitStep → WaitSt → Nat → List Nat → Option WaitOut
  | [], _, _, _ => none
  | s :: rest, st, ix, rb =>
    if deadlineHit deadline s.tA then
      some { result := finalResult reqId sessionKey st false none,
             consumed := ix + 1, rebinds := rb, paneDied := false }
    else
      if decide (paneInterval ≤ s.tA - st.lastPaneCheck) && !s.paneAlive then
        some { result := paneDiedResult reqId sessionKey st,
               consumed := ix + 1, rebinds := rb, paneDied := true }
      else
        let st1 := paneAdjust (decide (paneInterval ≤ s.tA - st.lastPaneCheck)) s st
        if s.events.isEmpty then
          if !st1.rebounded && !st1.anchorSeen && decide (graceA ≤ s.tB) then
            waitLoop reqId sessionKey startedAt deadline graceA collectGrace paneInterval
              rest { st1 with fallbackScan := true, rebounded := true } (ix + 1) (rb ++ [ix])
          else
            waitLoop reqId sessionKey startedAt deadline graceA collectGrace paneInterval
              rest st1 (ix + 1) rb
        else
          match processEvents reqId collectGrace s.tB startedAt s.events st1 with
          | (st2, true, dms) =>
            some { result := finalResult reqId sessionKey st2 true dms,
                   consumed := ix + 1, rebinds := rb, paneDied := false }
          | (st2, false, _) =>
            waitLoop reqId sessionKey startedAt deadline graceA collectGrace paneInterval
              rest st2 (ix + 1) rb

/-- External inputs of one `handle_task` run: what session lookup, pane
acquisition and backend lookup return, the `time.time()` samples taken
before the loop, the pane-check interval knob, and the per-iteration step
inputs. -/
structure TaskEnv where
  sessionFound : Bool
  ensurePaneOk : Bool
  paneOrErr : String
  backendOk : Bool
  tStart : Int
  tLoop : Int
  startedAt : Int
  paneCheckInterval : Int
  steps : List WaitStep
  sessionKey : String
deriving DecidableEq

/-- The request deadline, `None` for a negative timeout. -/
def deadlineOf (env : TaskEnv) (task : QueuedTask) : Option Int :=
  if task.request.timeout_s < 0 then none else some (env.tStart + task.request.timeout_s)

/-- The `anchor_grace_deadline` of the wait loop. -/
def graceAOf (env : TaskEnv) (task : QueuedTask) : Int :=
  match deadlineOf env task with
  | none => env.tLoop + 1500
  | some d => min d (env.tLoop + 1500)

/-- The `anchor_collect_grace` of the wait loop. -/
def collectGraceOf (env : TaskEnv) (task : QueuedTask) : Int :=
  match deadlineOf env task with
  | none => env.tLoop + 2000
  | some d => min d (env.tLoop + 2000)

/-- The initial state of the wait loop locals. -/
def initWaitSt (env : TaskEnv) : WaitSt :=
  { chunks := [], anchorSeen := false, anchorMs := none, fallbackScan := false,
    rebounded := false, lastPaneCheck := env.tLoop }

/-- Observable outcome of `handle_task` plus ghost observations: whether the
completion notifier (`notify_completion` in `_finalize_result`) was invoked,
whether the result came from one of the early error returns (which skip both
post-processing and the notifier), the loop ghosts, and the reply before
post-processing. -/
structure HandleOut where
  result : ProviderResult
  notified : Bool
  earlyError : Bool
  consumed : Nat
  rebinds : List Nat
  paneDied : Bool
  rawReply : String
deriving DecidableEq

/-- Embedding of `ClaudeAdapter.handle_task`: the three early error returns,
then the wait loop followed by `_postprocess_reply` and `_finalize_result`
(which invokes the completion notifier unless the task was cancelled). -/
def handle_task (env : TaskEnv) (task : QueuedTask) : Option HandleOut :=
  if !env.sessionFound then
    some { result := { exit_code := 1, reply := "No active Claude session found for work_dir.",
                       req_id := task.req_id, session_key := env.sessionKey, done_seen := false },
           notified := false, earlyError := true, consumed := 0, rebinds := [],
           paneDied := false, rawReply := "No active Claude session found for work_dir." }
  else if !env.ensurePaneOk then
    some { result := { exit_code := 1, reply := "Session pane not available: " ++ env.paneOrErr,
                       req_id := task.req_id, session_key := env.sessionKey, done_seen := false },
           notified := false, earlyError := true, consumed := 0, rebinds := [],
           paneDied := false, rawReply := "Session pane not available: " ++ env.paneOrErr }
  else if !env.backendOk then
    some { result := { exit_code := 1, reply := "Terminal backend not available",
                       req_id := task.req_id, session_key := env.sessionKey, done_seen := false },
           notified := false, earlyError := true, consumed := 0, rebinds := [],
           paneDied := false, rawReply := "Terminal backend not available" }
  else
    match waitLoop task.req_id env.sessionKey env.startedAt (deadlineOf env task)
        (graceAOf env task) (collectGraceOf env task) env.paneCheckInterval
        env.steps (initWaitSt env) 0 [] with
    | none => none
    | some w =>
      some { result := { w.result with
               reply := _postprocess_reply task.request.message w.result.reply },
             notified := !task.cancelled, earlyError := false,
             consumed := w.consumed, rebinds := w.rebinds, paneDied := w.paneDied,
             rawReply := w.result.reply }


/-! ## Concrete runs used by the witnesses and counterexamples -/

/-- A plain request with a 30 s timeout. -/
def reqW : ProviderRequest :=
  { message := "hi", timeout_s := 30000, no_wrap := false, caller := "cli", output_path := none }

/-- A plain, uncancelled task. -/
def taskW : QueuedTask :=
  { request := reqW, req_id := "20240101-120000-000-1-2", cancelled := false }

/-- One polling iteration that sees the user anchor and a done assistant
reply. -/
def stepDone : WaitStep :=
  { tA := 1000, paneAlive := true,
    events := [("user", "CCB_REQ_ID: 20240101-120000-000-1-2"),
               ("assistant", "hello\nCCB_DONE: 20240101-120000-000-1-2")],
    tB := 3000 }

/-- A healthy environment whose single iteration completes the request. -/
def envW : TaskEnv :=
  { sessionFound := true, ensurePaneOk := true, paneOrErr := "", backendOk := true,
    tStart := 0, tLoop := 0, startedAt := 0, paneCheckInterval := 2000,
    steps := [stepDone], sessionKey := "sk" }

/-- The outcome of `handle_task envW taskW`. -/
def oW : HandleOut :=
  { result := { exit_code := 0, reply := "hello", req_id := "20240101-120000-000-1-2",
                session_key := "sk", done_seen := true, anchor_seen := true,
                fallback_scan := false, anchor_ms := some 3000, done_ms := some 3000 },
    notified := true, earlyError := false, consumed := 1, rebinds := [],
    paneDied := false, rawReply := "hello" }

/-- A request with a 10 s timeout. -/
def reqC5 : ProviderRequest :=
  { message := "hi", timeout_s := 10000, no_wrap := false, caller := "cli", output_path := none }

/-- A task whose cancellation flag is already set when the run starts. -/
def taskC5 : QueuedTask :=
  { request := reqC5, req_id := "20240101-120000-000-1-2", cancelled := true }

/-- Three polling iterations with no done reply; the third hits the 10 s
deadline. -/
def envC5 : TaskEnv :=
  { sessionFound := true, ensurePaneOk := true, paneOrErr := "", backendOk := true,
    tStart := 0, tLoop := 0, startedAt := 0, paneCheckInterval := 100000,
    steps := [ { tA := 1000, paneAlive := true, events := [("assistant", "x")], tB := 1000 },
               { tA := 5000, paneAlive := true, events := [("assistant", "x")], tB := 5000 },
               { tA := 11000, paneAlive := true, events := [], tB := 11000 } ],
    sessionKey := "sk" }

/-- The outcome of `handle_task envC5 taskC5`. -/
def oC5 : HandleOut :=
  { result := { exit_code := 2, reply := "x", req_id := "20240101-120000-000-1-2",
                session_key := "sk", done_seen := false, anchor_seen := false,
                fallback_scan := false, anchor_ms := none, done_ms := none },
    notified := false, earlyError := false, consumed := 3, rebinds := [],
    paneDied := false, rawReply := "x" }

/-- A run whose first poll returns no events after the anchor grace (so the
permissive rebind fires) and whose second poll completes the request. -/
def envR : TaskEnv :=
  { sessionFound := true, ensurePaneOk := true, paneOrErr := "", backendOk := true,
    tStart := 0, tLoop := 0, startedAt := 0, paneCheckInterval := 100000,
    steps := [ { tA := 1000, paneAlive := true, events := [], tB := 2000 },
               { tA := 3000, paneAlive := true,
                 events := [("user", "CCB_REQ_ID: 20240101-120000-000-1-2"),
                            ("assistant", "hello\nCCB_DONE: 20240101-120000-000-1-2")],
                 tB := 4000 } ],
    sessionKey := "sk" }

/-- The outcome of `handle_task envR taskW`. -/
def oR : HandleOut :=
  { result := { exit_code := 0, reply := "hello", req_id := "20240101-120000-000-1-2",
                session_key := "sk", done_seen := true, anchor_seen := true,
                fallback_scan := true, anchor_ms := some 4000, done_ms := some 4000 },
    notified := true, earlyError := false, consumed := 2, rebinds := [0],
    paneDied := false, rawReply := "hello" }


/-- A run whose single iteration finds the pane dead (the pane check is due
at `tA = 2500` and `paneAlive` is false). -/
def envC6 : TaskEnv :=
  { sessionFound := true, ensurePaneOk := true, paneOrErr := "", backendOk := true,
    tStart := 0, tLoop := 0, startedAt := 0, paneCheckInterval := 2000,
    steps := [ { tA := 2500, paneAlive := false, events := [], tB := 2600 } ],
    sessionKey := "sk" }

/-- The outcome of `handle_task envC6 taskW`. -/
def oC6 : HandleOut :=
  { result := { exit_code := 1, reply := "Claude pane died during request",
                req_id := "20240101-120000-000-1-2", session_key := "sk",
                done_seen := false, anchor_seen := false, fallback_scan := false,
                anchor_ms := none, done_ms := none },
    notified := true, earlyError := false, consumed := 1, rebinds := [],
    paneDied := true, rawReply := "Claude pane died during request" }


/-- A task whose message contains `## a`, `## b` and `## c` (triggering the
A/B/C-section rewrite) but never asks for release notes. -/
def taskC10 : QueuedTask :=
  { request := { message := "## a ## b ## c", timeout_s := 30000, no_wrap := false,
                 caller := "cli", output_path := none },
    req_id := "20240101-120000-000-1-2", cancelled := false }

/-- A run whose single iteration completes with the extracted reply
`"Release Notes\nSummary: hi"`, which looks like a release-notes reply. -/
def envC10 : TaskEnv :=
  { sessionFound := true, ensurePaneOk := true, paneOrErr := "", backendOk := true,
    tStart := 0, tLoop := 0, startedAt := 0, paneCheckInterval := 2000,
    steps := [ { tA := 1000, paneAlive := true,
                 events := [("user", "CCB_REQ_ID: 20240101-120000-000-1-2"),
                            ("assistant",
                             "Release Notes\nSummary: hi\nCCB_DONE: 20240101-120000-000-1-2")],
                 tB := 1200 } ],
    sessionKey := "sk" }

/-- The outcome of `handle_task envC10 taskC10`: the release-notes block
built by `_fix_release_notes` is erased again by `_fix_abc_sections`. -/
def oC10 : HandleOut :=
  { result := { exit_code := 0, reply := "", req_id := "20240101-120000-000-1-2",
                session_key := "sk", done_seen := true, anchor_seen := true,
                fallback_scan := false, anchor_ms := some 1200, done_ms := some 1200 },
    notified := true, earlyError := false, consumed := 1, rebinds := [],
    paneDied := false, rawReply := "Release Notes\nSummary: hi" }

/-- The plain task `taskW`'s request with the same environment `envC10`: a
message that triggers no rewrite at all. -/
def taskC10b : QueuedTask :=
  { request := { message := "hi", timeout_s := 30000, no_wrap := false,
                 caller := "cli", output_path := none },
    req_id := "20240101-120000-000-1-2", cancelled := false }

/-- The outcome of `handle_task envC10 taskC10b`. -/
def oC10b : HandleOut :=
  { result := { exit_code := 0, reply := "### Release Notes\nSummary:  hi",
                req_id := "20240101-120000-000-1-2", session_key := "sk",
                done_seen := true, anchor_seen := true, fallback_scan := false,
                anchor_ms := some 1200, done_ms := some 1200 },
    notified := true, earlyError := false, consumed := 1, rebinds := [],
    paneDied := false, rawReply := "Release Notes\nSummary: hi" }


/-! ## Claude log binding refresh (laskd_registry.py)

Paths are strings; the filesystem visible to `_should_overwrite_binding` and
`_refresh_claude_log_binding` is a pair of oracles: `pathExists` for
`Path.exists()` and `stat` for `Path.stat().st_mtime` (`none` models an
`OSError`).  The helpers `_extract_session_id_from_start_cmd`,
`_find_log_for_session_id`, `_parse_sessions_index` and
`_scan_latest_log_for_work_dir` only produce inputs for the refresh logic,
so their outputs are fields of `RefreshEnv` (`none` models a falsy Python
result; the session-id helpers never return an empty string).
`session.update_claude_binding(session_path, session_id)` is the only
effect; it is modelled by the `newPath`/`newSid` fields of the output. -/

/-- The filesystem oracles used by the binding refresh. -/
structure Fs where
  pathExists : String → Bool
  stat : String → Option Int

/-- Embedding of `_should_overwrite_binding` from `laskd_registry.py`. -/
def _should_overwrite_binding (fs : Fs) (current : Option String)
    (candidate : String) : Bool :=
  match current with
  | none => true
  | some cur =>
    if !fs.pathExists cur then true
    else
      match fs.stat candidate, fs.stat cur with
      | some mc, some mcur => decide (mcur < mc)
      | _, _ => true

/-- The inputs of one `_refresh_claude_log_binding` call (see the section
comment). -/
structure RefreshEnv where
  fs : Fs
  currentPath : Option String
  currentSid : Option String
  intendedSid : Option String
  intendedLog : Option String
  indexSession : Option String
  scanLog : Option String
  scanSid : Option String

/-- The observable outcome of `_refresh_claude_log_binding`: the returned
boolean and the binding written by `update_claude_binding`, if any. -/
structure RefreshOut where
  updated : Bool
  newPath : Option String
  newSid : Option String
deriving DecidableEq

/-- The `return False` outcome (no update). -/
def noRefresh : RefreshOut := { updated := false, newPath := none, newSid := none }

/-- `PurePath.stem`: the final path component without its last suffix (a
suffix is a dot neither leading nor trailing in the component). -/
def pathStem (p : String) : String :=
  let name := match (pySplitCh p '/').getLast? with
    | some n => n
    | none => p
  let l := name.data
  match ((List.range l.length).filter fun i => decide (l.getD i ' ' = '.')).getLast? with
  | some i => if 0 < i ∧ i < l.length - 1 then ⟨l.take i⟩ else name
  | none => name

/-- The fallback-scan stage (stage 3) of `_refresh_claude_log_binding`. -/
def refreshScanStage (e : RefreshEnv) (needScan : Bool) : RefreshOut :=
  if !needScan then noRefresh else
  match e.scanLog with
  | none => noRefresh
  | some clog =>
    if !e.fs.pathExists clog then noRefresh
    else if _should_overwrite_binding e.fs e.currentPath clog ||
        (match e.scanSid with
         | some s => decide (e.currentSid ≠ some s)
         | none => false) then
      { updated := true, newPath := some clog, newSid := e.scanSid }
    else noRefresh

/-- The sessions-index stage (stage 2) of `_refresh_claude_log_binding`;
`intendedLogEff` is the `intended_log` local (which stays `None` when no
session id was parsed from the start command). -/
def refreshIndexStage (e : RefreshEnv) (forceScan : Bool)
    (intendedLogEff : Option String) : RefreshOut :=
  let needScan := forceScan || (intendedLogEff.isNone && e.indexSession.isNone)
  match e.indexSession with
  | some ipath =>
    if e.fs.pathExists ipath then
      if _should_overwrite_binding e.fs e.currentPath ipath ||
          decide (e.currentSid ≠ some (pathStem ipath)) then
        { updated := true, newPath := some ipath, newSid := some (pathStem ipath) }
      else if !forceScan then noRefresh
      else refreshScanStage e needScan
    else refreshScanStage e needScan
  | none => refreshScanStage e needScan

/-- Embedding of `_refresh_claude_log_binding` from `laskd_registry.py`
(stage 1, the start-command session id, then the later stages). -/
def _refresh_claude_log_binding (e : RefreshEnv) (forceScan : Bool) : RefreshOut :=
  match e.intendedSid, e.intendedLog with
  | some sid, some ilog =>
    if e.fs.pathExists ilog then
      if _should_overwrite_binding e.fs e.currentPath ilog ||
          decide (e.currentSid ≠ some sid) then
        { updated := true, newPath := some ilog, newSid := some sid }
      else noRefresh
    else refreshIndexStage e forceScan (some ilog)
  | some _, none => refreshIndexStage e forceScan none
  | none, _ => refreshIndexStage e forceScan none

/-- A filesystem where the bound log `cur.jsonl` (mtime 100) still exists
and the index candidate `idx/B.jsonl` is strictly older (mtime 50). -/
def fsC7 : Fs :=
  { pathExists := fun p => p = "cur.jsonl" || p = "idx/B.jsonl",
    stat := fun p =>
      if p = "cur.jsonl" then some 100
      else if p = "idx/B.jsonl" then some 50 else none }

/-- A refresh whose sessions index names session `B` while the current
binding is session `A` on a strictly newer log. -/
def eC7 : RefreshEnv :=
  { fs := fsC7, currentPath := some "cur.jsonl", currentSid := some "A",
    intendedSid := none, intendedLog := none,
    indexSession := some "idx/B.jsonl", scanLog := none, scanSid := none }


/-! ## Work-dir normalization (project_id.py)

`os.path.expanduser` and the `Path.cwd()`-based absolutization depend on the
host environment and are oracles in `PathEnv`, as is the Windows/MSYS test
`"MSYSTEM" in os.environ or os.name == "nt"`.  `posixpath.normpath` is
embedded following its CPython definition (split on `/`, drop `""`/`"."`
components, resolve `".."` against the accumulated components, re-join,
restore at most two initial slashes). -/

/-- An ASCII letter (the `[A-Za-z]` class of the drive regexes). -/
def isAsciiAlpha (c : Char) : Bool :=
  ('A' ≤ c && c ≤ 'Z') || ('a' ≤ c && c ≤ 'z')

/-- Python `str.lower()` on one ASCII character. -/
def toLowerCh (c : Char) : Char :=
  if 'A' ≤ c && c ≤ 'Z' then Char.ofNat (c.toNat + 32) else c

/-- Matcher for `_WIN_DRIVE_RE`: `^[A-Za-z]:([/\\]|$)`; the `$` branch also
matches just before a final newline. -/
def winDriveMatch (s : String) : Bool :=
  match s.data with
  | c1 :: ':' :: rest =>
    isAsciiAlpha c1 &&
      (match rest with
       | [] => true
       | ['\n'] => true
       | c :: _ => c = '/' || c = '\\')
  | _ => false

/-- Matcher for `_MNT_DRIVE_RE`: `^/mnt/([A-Za-z])/(.*)$`, returning the
two captures (`.` does not cross a newline, and after the caller's `strip`
the string cannot end in one, so the tail must be newline-free). -/
def mntMatch (s : String) : Option (Char × String) :=
  match s.data with
  | '/' :: 'm' :: 'n' :: 't' :: '/' :: d :: '/' :: rest =>
    if isAsciiAlpha d && rest.all (fun c => !(c = '\n')) then some (d, ⟨rest⟩) else none
  | _ => none

/-- Matcher for `_MSYS_DRIVE_RE`: `^/([A-Za-z])/(.*)$`, returning the two
captures (same newline caveat as `mntMatch`). -/
def msysMatch (s : String) : Option (Char × String) :=
  match s.data with
  | '/' :: d :: '/' :: rest =>
    if isAsciiAlpha d && rest.all (fun c => !(c = '\n')) then some (d, ⟨rest⟩) else none
  | _ => none

/-- Python `s.replace("\\", "/")`. -/
def replBackslash (s : String) : String :=
  ⟨s.data.map fun c => if c = '\\' then '/' else c⟩

/-- The component loop of `posixpath.normpath` (CPython): `acc` holds the
kept components in reverse. -/
def npAux (hasRoot : Bool) : List String → List String → List String
  | [], acc => acc.reverse
  | comp :: rest, acc =>
    if comp = "" || comp = "." then npAux hasRoot rest acc
    else if comp ≠ ".." || (!hasRoot && acc.isEmpty) ||
        (match acc with | a :: _ => a = ".." | [] => false) then
      npAux hasRoot rest (comp :: acc)
    else
      match acc with
      | _ :: t => npAux hasRoot rest t
      | [] => npAux hasRoot rest acc

/-- Embedding of `posixpath.normpath`. -/
def posix_normpath (path : String) : String :=
  if path = "" then "." else
  let initialSlashes : Nat :=
    if pyStartsWith path "/" then
      if pyStartsWith path "//" && !pyStartsWith path "///" then 2 else 1
    else 0
  let newComps := npAux (decide (0 < initialSlashes)) (pySplitCh path '/') []
  let p2 : String := ⟨List.replicate initialSlashes '/'⟩ ++ joinSep "/" newComps
  if p2 = "" then "." else p2

/-- The host-environment oracles read by `normalize_work_dir`. -/
structure PathEnv where
  expanduser : String → String
  absolutize : String → String
  msysEnabled : Bool

/-- Embedding of `normalize_work_dir` from `project_id.py`. -/
def normalize_work_dir (env : PathEnv) (value : String) : String :=
  let raw0 := pyStrip value
  if raw0.data.isEmpty then "" else
  let raw1 := if pyStartsWith raw0 "~" then env.expanduser raw0 else raw0
  let preview := replBackslash raw1
  let isAbs := pyStartsWith preview "/" || pyStartsWith preview "//" ||
    pyStartsWith preview "\\\\" || winDriveMatch preview
  let raw2 := if !isAbs then env.absolutize raw1 else raw1
  let s := replBackslash raw2
  let s1 :=
    match mntMatch s with
    | some (d, rest) => String.mk [toLowerCh d] ++ ":/" ++ rest
    | none =>
      match msysMatch s with
      | some (d, rest) =>
        if env.msysEnabled then String.mk [toLowerCh d] ++ ":/" ++ rest else s
      | none => s
  let s2 :=
    if pyStartsWith s1 "//" then
      "//" ++ ⟨(posix_normpath ⟨s1.data.drop 2⟩).data.dropWhile (fun c => c = '/')⟩
    else posix_normpath s1
  if winDriveMatch s2 then
    match s2.data with
    | c :: rest => ⟨toLowerCh c :: rest⟩
    | [] => s2
  else s2

/-- A plain POSIX host: `~` expansion and absolutization are the identity
(they are never reached by the inputs below) and MSYS mapping is off. -/
def envP : PathEnv :=
  { expanduser := fun s => s, absolutize := fun s => s, msysEnabled := false }


/- DEFINITIONS-ZONE-END -/

/-! ## General lemmas about filtered ranges and last elements -/

theorem mem_filter_range (n : Nat) (p : Nat → Bool) (i : Nat) :
    i ∈ (List.range n).filter p ↔ i < n ∧ p i = true := by
  simp [List.mem_filter, List.mem_range]

theorem getLast?_eq_max : ∀ (l : List Nat), l.Pairwise (· < ·) →
    ∀ m : Nat, m ∈ l → (∀ j ∈ l, j ≤ m) → l.getLast? = some m
  | [], _, m, hm, _ => absurd hm (List.not_mem_nil m)
  | [a], _, m, hm, _ => by
    have ha : m = a := List.mem_singleton.mp hm
    subst ha; rfl
  | a :: b :: t2, hs, m, hm, hmax => by
    rw [List.getLast?_cons_cons]
    have hpc := List.pairwise_cons.mp hs
    have hmt : m ∈ b :: t2 := by
      rcases List.mem_cons.mp hm with h | h
      · exfalso
        have hab : a < b := hpc.1 b (List.mem_cons_self b t2)
        have hbm : b ≤ m := hmax b (List.mem_cons_of_mem a (List.mem_cons_self b t2))
        omega
      · exact h
    exact getLast?_eq_max (b :: t2) hpc.2 m hmt
      (fun j hj => hmax j (List.mem_cons_of_mem a hj))

theorem pairwise_filter_range (n : Nat) (p : Nat → Bool) :
    ((List.range n).filter p).Pairwise (· < ·) :=
  (List.pairwise_lt_range n).filter p

end CCB

namespace CCB

theorem extract_reply_eq_between (text B : String) (i j : Nat)
    (hij : i < j) (hj : j < (pyLines text).length)
    (hiD : isAnyCcbDoneLine ((pyLines text).getD i "") = true)
    (hjD : isAnyCcbDoneLine ((pyLines text).getD j "") = true)
    (hjT : targetMatchCI B ((pyLines text).getD j "") = true)
    (hlast : ∀ k, j < k → k < (pyLines text).length →
      ¬(isAnyCcbDoneLine ((pyLines text).getD k "") = true ∧
        targetMatchCI B ((pyLines text).getD k "") = true))
    (hmid : ∀ k, i < k → k < j → isAnyCcbDoneLine ((pyLines text).getD k "") = false) :
    extract_reply_for_req text B =
      pyRstrip (joinNL (trimBlankLines (segBetween (pyLines text) i j))) := by
  have hne : (pyLines text).isEmpty = false := by
    cases hL : pyLines text with
    | nil => rw [hL] at hj; simp at hj
    | cons a t => rfl
  have hTlast :
      (((List.range (pyLines text).length).filter fun k =>
          isAnyCcbDoneLine ((pyLines text).getD k "")).filter fun k =>
          targetMatchCI B ((pyLines text).getD k "")).getLast? = some j := by
    apply getLast?_eq_max
    · exact List.Pairwise.filter _ (pairwise_filter_range _ _)
    · simp only [List.mem_filter, List.mem_range]
      exact ⟨⟨hj, hjD⟩, hjT⟩
    · intro k hk
      simp only [List.mem_filter, List.mem_range] at hk
      by_contra hgt
      exact hlast k (by omega) hk.1.1 ⟨hk.1.2, hk.2⟩
  have hPrev :
      (((List.range (pyLines text).length).filter fun k =>
          isAnyCcbDoneLine ((pyLines text).getD k "")).filter fun k =>
          decide (k < j)).getLast? = some i := by
    apply getLast?_eq_max
    · exact List.Pairwise.filter _ (pairwise_filter_range _ _)
    · simp only [List.mem_filter, List.mem_range, decide_eq_true_eq]
      exact ⟨⟨by omega, hiD⟩, hij⟩
    · intro k hk
      simp only [List.mem_filter, List.mem_range, decide_eq_true_eq] at hk
      by_contra hgt
      have hik : i < k := by omega
      have := hmid k hik hk.2
      rw [hk.1.2] at this
      exact Bool.true_eq_false.mp this
  unfold extract_reply_for_req
  simp only [hne, Bool.false_eq_true, if_false, hTlast, hPrev]
  rfl

end CCB

namespace CCB

/-- C3: if the text contains some well-formed CCB_DONE line but none for the
requested id, `extract_reply_for_req` returns the empty string. -/
theorem C3_other_turns_extract_empty (text reqId : String)
    (hdone : ∃ ln ∈ pyLines text, isAnyCcbDoneLine ln = true)
    (hnone : ∀ ln ∈ pyLines text, isAnyCcbDoneLine ln = true →
      targetMatchCI reqId ln = false) :
    extract_reply_for_req text reqId = "" := by
  obtain ⟨ln, hmem, hany⟩ := hdone
  have hne : (pyLines text).isEmpty = false := by
    cases hL : pyLines text with
    | nil => rw [hL] at hmem; exact absurd hmem (List.not_mem_nil ln)
    | cons a t => rfl
  have hTnil :
      ((List.range (pyLines text).length).filter fun k =>
        isAnyCcbDoneLine ((pyLines text).getD k "")).filter (fun k =>
        targetMatchCI reqId ((pyLines text).getD k "")) = [] := by
    apply List.filter_eq_nil_iff.mpr
    intro k hk
    simp only [List.mem_filter, List.mem_range] at hk
    have hkm : (pyLines text).getD k "" ∈ pyLines text := by
      rw [List.getD_eq_getElem _ _ hk.1]
      exact List.getElem_mem _
    have hfalse := hnone _ hkm hk.2
    simp only [hfalse]
    exact Bool.false_ne_true
  have hDne : ((List.range (pyLines text).length).filter fun k =>
        isAnyCcbDoneLine ((pyLines text).getD k "")) ≠ [] := by
    obtain ⟨k, hk, hkeq⟩ := List.mem_iff_getElem.mp hmem
    apply List.ne_nil_of_mem (a := k)
    simp only [List.mem_filter, List.mem_range]
    refine ⟨hk, ?_⟩
    rw [List.getD_eq_getElem _ _ hk, hkeq]
    exact hany
  have hDempty : ((List.range (pyLines text).length).filter fun k =>
        isAnyCcbDoneLine ((pyLines text).getD k "")).isEmpty = false := by
    cases hD : (List.range (pyLines text).length).filter fun k =>
        isAnyCcbDoneLine ((pyLines text).getD k "") with
    | nil => exact absurd hD hDne
    | cons a t => rfl
  unfold extract_reply_for_req
  simp only [hne, Bool.false_eq_true, if_false, hTnil, List.getLast?_nil, hDempty]

end CCB

namespace CCB

/-! ## Decomposition lemmas for `splitlines` -/

@[simp] theorem isLineBoundary_nl : isLineBoundary '\n' = true := rfl

@[simp] theorem isLineBoundary_cr : isLineBoundary '\r' = true := rfl

theorem slAux_glue : ∀ (n : Nat) (a : List Char), a.length ≤ n → ∀ (acc b : List Char),
    slAux (a ++ '\n' :: b) acc = slAux (a ++ ['\n']) acc ++ slAux b []
  | _, [], _, acc, b => by
    cases b <;> simp [slAux]
  | _, [c], _, acc, b => by
    by_cases hcr : c = '\r'
    · subst hcr
      cases b <;> simp [slAux]
    · by_cases hb : isLineBoundary c = true
      · cases b <;> simp [slAux, hcr, hb]
      · cases b <;> simp [slAux, hcr, hb]
  | 0, c :: c2 :: a3, h, acc, b => by
    simp at h
  | n + 1, c :: c2 :: a3, h, acc, b => by
    have h3 : a3.length ≤ n := by simp at h; omega
    have h2 : (c2 :: a3).length ≤ n := by simp at h ⊢; omega
    by_cases hcr : c = '\r'
    · subst hcr
      by_cases hnl : c2 = '\n'
      · subst hnl
        show slAux ('\r' :: '\n' :: (a3 ++ '\n' :: b)) acc = _
        rw [show ('\r' :: '\n' :: a3) ++ ['\n'] = '\r' :: '\n' :: (a3 ++ ['\n']) from rfl]
        simp only [slAux]
        rw [slAux_glue n a3 h3 [] b]
        simp
      · show slAux ('\r' :: c2 :: (a3 ++ '\n' :: b)) acc = _
        rw [show ('\r' :: c2 :: a3) ++ ['\n'] = '\r' :: c2 :: (a3 ++ ['\n']) from rfl]
        simp only [slAux, if_pos rfl, hnl, if_neg, ite_false, decide_eq_true_eq]
        have := slAux_glue n (c2 :: a3) h2 [] b
        simp only [List.cons_append] at this
        simp [hnl, this]
    · by_cases hb : isLineBoundary c = true
      · show slAux (c :: c2 :: (a3 ++ '\n' :: b)) acc = _
        rw [show (c :: c2 :: a3) ++ ['\n'] = c :: c2 :: (a3 ++ ['\n']) from rfl]
        have := slAux_glue n (c2 :: a3) h2 [] b
        simp only [List.cons_append] at this
        simp [slAux, hcr, hb, this]
      · show slAux (c :: c2 :: (a3 ++ '\n' :: b)) acc = _
        rw [show (c :: c2 :: a3) ++ ['\n'] = c :: c2 :: (a3 ++ ['\n']) from rfl]
        have := slAux_glue n (c2 :: a3) h2 (c :: acc) b
        simp only [List.cons_append] at this
        simp [slAux, hcr, hb, this]

/-- Splitting distributes over a concatenation glued by an explicit newline. -/
theorem pyLines_glue (P Q : String) :
    pyLines (P ++ "\n" ++ Q) = pyLines (P ++ "\n") ++ pyLines Q := by
  have hdata : (P ++ "\n" ++ Q).data = P.data ++ '\n' :: Q.data := by
    simp [String.data_append]
  have hdata2 : (P ++ "\n").data = P.data ++ ['\n'] := by
    simp [String.data_append]
  unfold pyLines pyLinesL
  rw [hdata, hdata2, slAux_glue (P.data.length) P.data (Nat.le_refl _) [] Q.data]
  simp

end CCB

namespace CCB

theorem slAux_term_cases : ∀ (n : Nat) (a : List Char), a.length ≤ n → ∀ (acc : List Char),
    slAux (a ++ ['\n']) acc = slAux a acc ∨
    slAux (a ++ ['\n']) acc = slAux a acc ++ [[]]
  | _, [], _, acc => by
    cases acc <;> simp [slAux]
  | _, [c], _, acc => by
    by_cases hcr : c = '\r'
    · subst hcr
      left
      simp [slAux]
    · by_cases hb : isLineBoundary c = true
      · right
        simp [slAux, hcr, hb]
      · left
        simp [slAux, hcr, hb]
  | 0, c :: c2 :: a3, h, acc => by
    simp at h
  | n + 1, c :: c2 :: a3, h, acc => by
    have h3 : a3.length ≤ n := by simp at h; omega
    have h2 : (c2 :: a3).length ≤ n := by simp at h ⊢; omega
    by_cases hcr : c = '\r'
    · subst hcr
      by_cases hnl : c2 = '\n'
      · subst hnl
        show slAux ('\r' :: '\n' :: (a3 ++ ['\n'])) acc = _ ∨ _
        rcases slAux_term_cases n a3 h3 [] with hq | hq <;>
          simp [slAux, hq]
      · show slAux ('\r' :: c2 :: (a3 ++ ['\n'])) acc = _ ∨ _
        rcases slAux_term_cases n (c2 :: a3) h2 [] with hq | hq <;>
          simp only [List.cons_append] at hq <;>
          simp [slAux, hnl, hq]
    · by_cases hb : isLineBoundary c = true
      · show slAux (c :: c2 :: (a3 ++ ['\n'])) acc = _ ∨ _
        rcases slAux_term_cases n (c2 :: a3) h2 [] with hq | hq <;>
          simp only [List.cons_append] at hq <;>
          simp [slAux, hcr, hb, hq]
      · show slAux (c :: c2 :: (a3 ++ ['\n'])) acc = _ ∨ _
        rcases slAux_term_cases n (c2 :: a3) h2 (c :: acc) with hq | hq <;>
          simp only [List.cons_append] at hq <;>
          simp [slAux, hcr, hb, hq]

/-- Appending a final newline either leaves the split unchanged or adds one
trailing empty line. -/
theorem pyLines_term_cases (X : String) :
    pyLines (X ++ "\n") = pyLines X ∨ pyLines (X ++ "\n") = pyLines X ++ [""] := by
  have hdata : (X ++ "\n").data = X.data ++ ['\n'] := by
    simp [String.data_append]
  unfold pyLines pyLinesL
  rw [hdata]
  rcases slAux_term_cases X.data.length X.data (Nat.le_refl _) [] with hq | hq
  · left
    rw [hq]
  · right
    rw [hq]
    simp

theorem slAux_nb_term : ∀ (a : List Char), (∀ c ∈ a, isLineBoundary c = false) →
    ∀ acc, slAux (a ++ ['\n']) acc = [acc.reverse ++ a]
  | [], _, acc => by simp [slAux]
  | c :: a2, h, acc => by
    have hc : isLineBoundary c = false := h c (List.mem_cons_self c a2)
    have hcr : c ≠ '\r' := by
      intro he
      subst he
      simp at hc
    cases a2 with
    | nil => simp [slAux, hcr, hc]
    | cons d a3 =>
      have := slAux_nb_term (d :: a3) (fun x hx => h x (List.mem_cons_of_mem c hx)) (c :: acc)
      simp only [List.cons_append] at this ⊢
      simp [slAux, hcr, hc, this]

theorem slAux_nb : ∀ (a : List Char), (∀ c ∈ a, isLineBoundary c = false) →
    a ≠ [] → ∀ acc, slAux a acc = [acc.reverse ++ a]
  | [], _, hne, acc => absurd rfl hne
  | [c], h, _, acc => by
    have hc : isLineBoundary c = false := h c (List.mem_cons_self c [])
    simp [slAux, hc]
  | c :: d :: a3, h, _, acc => by
    have hc : isLineBoundary c = false := h c (List.mem_cons_self c (d :: a3))
    have hcr : c ≠ '\r' := by
      intro he
      subst he
      simp at hc
    have := slAux_nb (d :: a3) (fun x hx => h x (List.mem_cons_of_mem c hx))
      (List.cons_ne_nil d a3) (c :: acc)
    simp [slAux, hcr, hc, this]

/-- A boundary-free string followed by a newline splits into that one line. -/
theorem pyLines_nb_term (P : String) (h : ∀ c ∈ P.data, isLineBoundary c = false) :
    pyLines (P ++ "\n") = [P] := by
  have hdata : (P ++ "\n").data = P.data ++ ['\n'] := by
    simp [String.data_append]
  unfold pyLines pyLinesL
  rw [hdata, slAux_nb_term P.data h []]
  simp

/-- A nonempty boundary-free string splits into the single line it is. -/
theorem pyLines_nb (P : String) (hne : P.data ≠ []) (h : ∀ c ∈ P.data, isLineBoundary c = false) :
    pyLines P = [P] := by
  unfold pyLines pyLinesL
  rw [slAux_nb P.data h hne []]
  simp

end CCB

namespace CCB

theorem dropWhile_append_ne {α : Type} (p : α → Bool) :
    ∀ (l m : List α), l.dropWhile p ≠ [] →
    (l ++ m).dropWhile p = l.dropWhile p ++ m
  | [], _, h => absurd rfl h
  | x :: l2, m, h => by
    by_cases hx : p x = true
    · have htail : l2.dropWhile p ≠ [] := by
        rw [List.dropWhile_cons, if_pos hx] at h
        exact h
      rw [List.cons_append, List.dropWhile_cons, if_pos hx,
        List.dropWhile_cons, if_pos hx]
      exact dropWhile_append_ne p l2 m htail
    · rw [List.cons_append, List.dropWhile_cons, if_neg hx,
        List.dropWhile_cons, if_neg hx, List.cons_append]

theorem dropWhile_append_nil {α : Type} (p : α → Bool) :
    ∀ (l m : List α), l.dropWhile p = [] →
    (l ++ m).dropWhile p = m.dropWhile p
  | [], _, _ => rfl
  | x :: l2, m, h => by
    by_cases hx : p x = true
    · rw [List.dropWhile_cons, if_pos hx] at h
      rw [List.cons_append, List.dropWhile_cons, if_pos hx]
      exact dropWhile_append_nil p l2 m h
    · rw [List.dropWhile_cons, if_neg hx] at h
      exact absurd h (List.cons_ne_nil x l2)

/-- Trimming blank lines ignores one trailing empty line. -/
theorem trimBlankLines_append_empty (L : List String) :
    trimBlankLines (L ++ [""]) = trimBlankLines L := by
  unfold trimBlankLines
  by_cases hL : L.dropWhile isBlankLine = []
  · rw [dropWhile_append_nil isBlankLine L [""] hL, hL]
    simp [isBlankLine, stripL, rstripL, isPyWs]
  · rw [dropWhile_append_ne isBlankLine L [""] hL]
    rw [List.reverse_append]
    show ((("" :: (L.dropWhile isBlankLine).reverse).dropWhile isBlankLine)).reverse = _
    rw [List.dropWhile_cons]
    have hblank : isBlankLine "" = true := by decide
    rw [if_pos hblank]

end CCB

namespace CCB

/-! ## Character facts about well-formed request ids -/

theorem takeDigits_chars : ∀ (n : Nat) (l r : List Char), takeDigits n l = some r →
    ∃ p, l = p ++ r ∧ ∀ c ∈ p, isDigitCh c = true
  | 0, l, r, h => by
    simp [takeDigits] at h
    exact ⟨[], by simp [h], by simp⟩
  | n + 1, [], r, h => by
    simp [takeDigits] at h
  | n + 1, c :: rest, r, h => by
    simp only [takeDigits] at h
    by_cases hc : isDigitCh c = true
    · rw [if_pos hc] at h
      obtain ⟨p, hp, hall⟩ := takeDigits_chars n rest r h
      refine ⟨c :: p, by simp [hp], ?_⟩
      intro x hx
      rcases List.mem_cons.mp hx with he | hm
      · subst he; exact hc
      · exact hall x hm
    · rw [if_neg hc] at h
      exact absurd h (by simp)

theorem takeDigits1_chars (l r : List Char) (h : takeDigits1 l = some r) :
    ∃ p, l = p ++ r ∧ ∀ c ∈ p, isDigitCh c = true := by
  cases l with
  | nil => simp [takeDigits1] at h
  | cons c rest =>
    simp only [takeDigits1] at h
    by_cases hc : isDigitCh c = true
    · rw [if_pos hc] at h
      refine ⟨c :: rest.takeWhile isDigitCh, ?_, ?_⟩
      · have := List.takeWhile_append_dropWhile (p := isDigitCh) (l := rest)
        simp only [Option.some.injEq] at h
        rw [← h]
        simp only [List.cons_append]
        rw [show (c :: rest).dropWhile isDigitCh = rest.dropWhile isDigitCh from by
          rw [List.dropWhile_cons, if_pos hc]]
        rw [this]
      · intro x hx
        rcases List.mem_cons.mp hx with he | hm
        · subst he; exact hc
        · exact List.mem_takeWhile_imp hm
    · rw [if_neg hc] at h
      exact absurd h (by simp)

theorem expectDash_chars (l r : List Char) (h : expectDash l = some r) : l = '-' :: r := by
  cases l with
  | nil => simp [expectDash] at h
  | cons c rest =>
    simp only [expectDash] at h
    by_cases hc : c = '-'
    · rw [if_pos hc] at h
      simp only [Option.some.injEq] at h
      rw [hc, h]
    · rw [if_neg hc] at h
      exact absurd h (by simp)

theorem parseReqId_chars (l r : List Char) (h : parseReqId l = some r) :
    ∃ p, l = p ++ r ∧ ∀ c ∈ p, (isDigitCh c || decide (c = '-')) = true := by
  unfold parseReqId at h
  obtain ⟨r1, h1, h⟩ := Option.bind_eq_some.mp h
  obtain ⟨r2, h2, h⟩ := Option.bind_eq_some.mp h
  obtain ⟨r3, h3, h⟩ := Option.bind_eq_some.mp h
  obtain ⟨r4, h4, h⟩ := Option.bind_eq_some.mp h
  obtain ⟨r5, h5, h⟩ := Option.bind_eq_some.mp h
  obtain ⟨r6, h6, h⟩ := Option.bind_eq_some.mp h
  obtain ⟨r7, h7, h⟩ := Option.bind_eq_some.mp h
  obtain ⟨r8, h8, h9⟩ := Option.bind_eq_some.mp h
  obtain ⟨p1, hp1, ha1⟩ := takeDigits_chars 8 l r1 h1
  have hd2 := expectDash_chars r1 r2 h2
  obtain ⟨p3, hp3, ha3⟩ := takeDigits_chars 6 r2 r3 h3
  have hd4 := expectDash_chars r3 r4 h4
  obtain ⟨p5, hp5, ha5⟩ := takeDigits_chars 3 r4 r5 h5
  have hd6 := expectDash_chars r5 r6 h6
  obtain ⟨p7, hp7, ha7⟩ := takeDigits1_chars r6 r7 h7
  have hd8 := expectDash_chars r7 r8 h8
  obtain ⟨p9, hp9, ha9⟩ := takeDigits1_chars r8 r h9
  refine ⟨p1 ++ '-' :: (p3 ++ '-' :: (p5 ++ '-' :: (p7 ++ '-' :: p9))), ?_, ?_⟩
  · rw [hp1, hd2, hp3, hd4, hp5, hd6, hp7, hd8, hp9]
    simp
  · intro x hx
    have hdig : ∀ y, isDigitCh y = true → (isDigitCh y || decide (y = '-')) = true := by
      intro y hy; simp [hy]
    have hdash : (isDigitCh '-' || decide (('-' : Char) = '-')) = true := by decide
    simp only [List.mem_append, List.mem_cons] at hx
    rcases hx with h | h | h | h | h | h | h | h | h
    · exact hdig x (ha1 x h)
    · subst h; exact hdash
    · exact hdig x (ha3 x h)
    · subst h; exact hdash
    · exact hdig x (ha5 x h)
    · subst h; exact hdash
    · exact hdig x (ha7 x h)
    · subst h; exact hdash
    · exact hdig x (ha9 x h)

theorem wfReqId_chars (R : String) (h : wfReqId R = true) :
    ∀ c ∈ R.data, (isDigitCh c || decide (c = '-')) = true := by
  have hp : parseReqId R.data = some [] := of_decide_eq_true h
  obtain ⟨p, hp2, hall⟩ := parseReqId_chars R.data [] hp
  rw [List.append_nil] at hp2
  rw [hp2]
  exact hall

theorem idChar_not_ws (c : Char) (h : (isDigitCh c || decide (c = '-')) = true) :
    isPyWs c = false := by
  cases hw : isPyWs c
  · rfl
  · exfalso
    have hd : c = ' ' ∨ c = '\t' ∨ c = '\n' ∨ c = '\r' ∨ c = '\x0b' ∨ c = '\x0c' := by
      simpa [isPyWs, or_assoc] using hw
    rcases hd with h1 | h1 | h1 | h1 | h1 | h1 <;> subst h1 <;>
      exact absurd h (by decide)

theorem idChar_not_boundary (c : Char) (h : (isDigitCh c || decide (c = '-')) = true) :
    isLineBoundary c = false := by
  cases hw : isLineBoundary c
  · rfl
  · exfalso
    have hd : c = '\n' ∨ c = '\r' ∨ c = '\x0b' ∨ c = '\x0c' ∨ c = '\x1c' ∨
        c = '\x1d' ∨ c = '\x1e' ∨ c = '\x85' ∨ c = '\u2028' ∨ c = '\u2029' := by
      simpa [isLineBoundary, or_assoc] using hw
    rcases hd with h1 | h1 | h1 | h1 | h1 | h1 | h1 | h1 | h1 | h1 <;> subst h1 <;>
      exact absurd h (by decide)

theorem dropWhile_eq_self_of_none {α : Type} (p : α → Bool) :
    ∀ (l : List α), (∀ c ∈ l, p c = false) → l.dropWhile p = l
  | [], _ => rfl
  | x :: l2, h => by
    rw [List.dropWhile_cons, if_neg]
    rw [h x (List.mem_cons_self x l2)]
    simp

end CCB

namespace CCB

theorem ciPref_refl : ∀ (l : List Char), ciPref l l = true
  | [] => rfl
  | c :: rest => by
    simp [ciPref, ciEq, ciPref_refl rest]

/-- A well-formed done line is matched by `_ANY_CCB_DONE_LINE_RE`. -/
theorem anyDone_done_line (R : String) (h : wfReqId R = true) :
    isAnyCcbDoneLine ("CCB_DONE: " ++ R) = true := by
  have hdata : ("CCB_DONE: " ++ R).data =
      'C' :: 'C' :: 'B' :: '_' :: 'D' :: 'O' :: 'N' :: 'E' :: ':' :: ' ' :: R.data := by
    simp [String.data_append]
  have hws : ∀ c ∈ R.data, isPyWs c = false :=
    fun c hc => idChar_not_ws c (wfReqId_chars R h c hc)
  have hp : parseReqId R.data = some [] := of_decide_eq_true h
  unfold isAnyCcbDoneLine isAnyCcbDoneLineL
  rw [hdata]
  have hdw : ('C' :: 'C' :: 'B' :: '_' :: 'D' :: 'O' :: 'N' :: 'E' :: ':' :: ' ' :: R.data).dropWhile isPyWs =
      'C' :: 'C' :: 'B' :: '_' :: 'D' :: 'O' :: 'N' :: 'E' :: ':' :: ' ' :: R.data := by
    rw [List.dropWhile_cons, if_neg (by decide)]
  show (if ccbDoneLit.isPrefixOf (('C' :: 'C' :: 'B' :: '_' :: 'D' :: 'O' :: 'N' :: 'E' :: ':' :: ' ' :: R.data).dropWhile isPyWs) = true then
      match parseReqId (((('C' :: 'C' :: 'B' :: '_' :: 'D' :: 'O' :: 'N' :: 'E' :: ':' :: ' ' :: R.data).dropWhile isPyWs).drop 9).dropWhile isPyWs) with
      | some rest => rest.all isPyWs
      | none => false
    else false) = true
  rw [hdw]
  rw [if_pos (by simp [ccbDoneLit, List.isPrefixOf])]
  rw [show ('C' :: 'C' :: 'B' :: '_' :: 'D' :: 'O' :: 'N' :: 'E' :: ':' :: ' ' :: R.data).drop 9 =
    ' ' :: R.data from rfl]
  rw [show (' ' :: R.data).dropWhile isPyWs = R.data.dropWhile isPyWs from by
    rw [List.dropWhile_cons, if_pos (by decide)]]
  rw [dropWhile_eq_self_of_none isPyWs R.data hws, hp]
  rfl

/-- A well-formed done line is matched by the per-request target regex. -/
theorem target_done_line (R : String) :
    targetMatchCI R ("CCB_DONE: " ++ R) = true := by
  have hdata : ("CCB_DONE: " ++ R).data =
      'C' :: 'C' :: 'B' :: '_' :: 'D' :: 'O' :: 'N' :: 'E' :: ':' :: ' ' :: R.data := by
    simp [String.data_append]
  unfold targetMatchCI targetMatchCIL
  rw [hdata]
  have hdw : ('C' :: 'C' :: 'B' :: '_' :: 'D' :: 'O' :: 'N' :: 'E' :: ':' :: ' ' :: R.data).dropWhile isPyWs =
      'C' :: 'C' :: 'B' :: '_' :: 'D' :: 'O' :: 'N' :: 'E' :: ':' :: ' ' :: R.data := by
    rw [List.dropWhile_cons, if_neg (by decide)]
  show (ciPref ccbDoneLit (('C' :: 'C' :: 'B' :: '_' :: 'D' :: 'O' :: 'N' :: 'E' :: ':' :: ' ' :: R.data).dropWhile isPyWs) &&
      tmTailCI R.data ((('C' :: 'C' :: 'B' :: '_' :: 'D' :: 'O' :: 'N' :: 'E' :: ':' :: ' ' :: R.data).dropWhile isPyWs).drop 9)) = true
  rw [hdw]
  have hcp : ciPref ccbDoneLit
      ('C' :: 'C' :: 'B' :: '_' :: 'D' :: 'O' :: 'N' :: 'E' :: ':' :: ' ' :: R.data) = true := by
    simp [ccbDoneLit, ciPref, ciEq]
  rw [show ('C' :: 'C' :: 'B' :: '_' :: 'D' :: 'O' :: 'N' :: 'E' :: ':' :: ' ' :: R.data).drop 9 =
    ' ' :: R.data from rfl]
  have htail : tmTailCI R.data (' ' :: R.data) = true := by
    cases hR : R.data with
    | nil => decide
    | cons d rest2 =>
      rw [tmTailCI]
      simp only [Bool.or_eq_true, Bool.and_eq_true]
      right
      refine ⟨by decide, ?_⟩
      rw [tmTailCI]
      simp only [Bool.or_eq_true, Bool.and_eq_true]
      left
      refine ⟨ciPref_refl (d :: rest2), ?_⟩
      rw [List.drop_length]
      rfl
  rw [hcp, htail]
  rfl

/-- The request-id tag line is never a done line, whatever the id. -/
theorem anyDone_reqid_line (R : String) :
    isAnyCcbDoneLine ("CCB_REQ_ID: " ++ R) = false := by
  have hdata : ("CCB_REQ_ID: " ++ R).data =
      'C' :: 'C' :: 'B' :: '_' :: 'R' :: 'E' :: 'Q' :: '_' :: 'I' :: 'D' :: ':' :: ' ' :: R.data := by
    simp [String.data_append]
  unfold isAnyCcbDoneLine isAnyCcbDoneLineL
  rw [hdata]
  have hdw : ('C' :: 'C' :: 'B' :: '_' :: 'R' :: 'E' :: 'Q' :: '_' :: 'I' :: 'D' :: ':' :: ' ' :: R.data).dropWhile isPyWs =
      'C' :: 'C' :: 'B' :: '_' :: 'R' :: 'E' :: 'Q' :: '_' :: 'I' :: 'D' :: ':' :: ' ' :: R.data := by
    rw [List.dropWhile_cons, if_neg (by decide)]
  show (if ccbDoneLit.isPrefixOf (('C' :: 'C' :: 'B' :: '_' :: 'R' :: 'E' :: 'Q' :: '_' :: 'I' :: 'D' :: ':' :: ' ' :: R.data).dropWhile isPyWs) = true then
      match parseReqId (((('C' :: 'C' :: 'B' :: '_' :: 'R' :: 'E' :: 'Q' :: '_' :: 'I' :: 'D' :: ':' :: ' ' :: R.data).dropWhile isPyWs).drop 9).dropWhile isPyWs) with
      | some rest => rest.all isPyWs
      | none => false
    else false) = false
  rw [hdw]
  rw [if_neg (by simp [ccbDoneLit, List.isPrefixOf])]

theorem containsSub_of_dropWhile_pref (sub : List Char) (p : Char → Bool) :
    ∀ (l : List Char), sub.isPrefixOf (l.dropWhile p) = true → containsSub sub l = true
  | [], h => by
    simp at h
    simp [containsSub, h]
  | c :: rest, h => by
    by_cases hc : p c = true
    · rw [List.dropWhile_cons, if_pos hc] at h
      have := containsSub_of_dropWhile_pref sub p rest h
      simp [containsSub, this]
    · rw [List.dropWhile_cons, if_neg hc] at h
      simp [containsSub, h]

/-- Any line matched by the done-line regex contains the `CCB_DONE:` marker. -/
theorem anyDone_contains (s : String) (h : isAnyCcbDoneLine s = true) :
    strContains s "CCB_DONE:" = true := by
  unfold isAnyCcbDoneLine isAnyCcbDoneLineL at h
  by_cases hp : ccbDoneLit.isPrefixOf (s.data.dropWhile isPyWs) = true
  · exact containsSub_of_dropWhile_pref ccbDoneLit isPyWs s.data hp
  · rw [if_neg hp] at h
    exact absurd h (by simp)

/-- Splitting a chain of newline-terminated segments concatenates the splits. -/
theorem slAux_chain : ∀ (segs : List (List Char)) (last : List Char),
    slAux (segs.foldr (fun s acc => s ++ '\n' :: acc) last) [] =
    (segs.map fun s => slAux (s ++ ['\n']) []).flatten ++ slAux last []
  | [], _ => by simp
  | s :: segs2, last => by
    simp only [List.foldr_cons, List.map_cons, List.flatten]
    rw [slAux_glue (s.length) s (Nat.le_refl _) [] _]
    rw [slAux_chain segs2 last]
    simp

end CCB

namespace CCB

set_option maxRecDepth 4000 in
theorem pyLines_C4_decomp (M R X : String) (hR : wfReqId R = true) :
    pyLines (wrap_codex_prompt M R ++ X ++ "\n" ++ ("CCB_DONE: " ++ R)) =
      ["CCB_REQ_ID: " ++ R, ""] ++ pyLines (pyRstrip M ++ "\n") ++
      ["", "IMPORTANT:", "- Reply normally.", "- Reply normally, in English.",
       "- End your reply with this exact final line (verbatim, on its own line):",
       "CCB_DONE: " ++ R] ++ pyLines (X ++ "\n") ++ ["CCB_DONE: " ++ R] := by
  have hwf := wfReqId_chars R hR
  have hRnb : ∀ c ∈ R.data, isLineBoundary c = false :=
    fun c hc => idChar_not_boundary c (hwf c hc)
  have hdata : (wrap_codex_prompt M R ++ X ++ "\n" ++ ("CCB_DONE: " ++ R)).data =
      (["CCB_REQ_ID: ".data ++ R.data, [], (pyRstrip M).data, [],
        "IMPORTANT:".data, "- Reply normally.".data, "- Reply normally, in English.".data,
        "- End your reply with this exact final line (verbatim, on its own line):".data,
        "CCB_DONE: ".data ++ R.data, X.data].foldr (fun s acc => s ++ '\n' :: acc)
        ("CCB_DONE: ".data ++ R.data)) := by
    have e1 : ("\n\n" : String).data = '\n' :: '\n' :: ([] : List Char) := rfl
    have e2 : ("IMPORTANT:\n" : String).data = "IMPORTANT:".data ++ ['\n'] := rfl
    have e3 : ("- Reply normally.\n" : String).data = "- Reply normally.".data ++ ['\n'] := rfl
    have e4 : ("- Reply normally, in English.\n" : String).data =
      "- Reply normally, in English.".data ++ ['\n'] := rfl
    have e5 : ("- End your reply with this exact final line (verbatim, on its own line):\n" : String).data =
      "- End your reply with this exact final line (verbatim, on its own line):".data ++ ['\n'] := rfl
    have e6 : ("\n" : String).data = ['\n'] := rfl
    simp only [wrap_codex_prompt, String.data_append, List.foldr_cons, List.foldr_nil,
      e1, e2, e3, e4, e5, e6, List.append_assoc, List.cons_append, List.nil_append,
      List.singleton_append]
  have hs0 : slAux (("CCB_REQ_ID: ".data ++ R.data) ++ ['\n']) [] =
      ["CCB_REQ_ID: ".data ++ R.data] := by
    apply slAux_nb_term
    intro c hc
    rcases List.mem_append.mp hc with h | h
    · exact (by decide : ∀ c ∈ "CCB_REQ_ID: ".data, isLineBoundary c = false) c h
    · exact hRnb c h
  have hnil : slAux (([] : List Char) ++ ['\n']) [] = [[]] := rfl
  have hi1 : slAux ("IMPORTANT:".data ++ ['\n']) [] = ["IMPORTANT:".data] := by
    apply slAux_nb_term
    decide
  have hi2 : slAux ("- Reply normally.".data ++ ['\n']) [] = ["- Reply normally.".data] := by
    apply slAux_nb_term
    decide
  have hi3 : slAux ("- Reply normally, in English.".data ++ ['\n']) [] =
      ["- Reply normally, in English.".data] := by
    apply slAux_nb_term
    decide
  have hi4 : slAux ("- End your reply with this exact final line (verbatim, on its own line):".data ++ ['\n']) [] =
      ["- End your reply with this exact final line (verbatim, on its own line):".data] := by
    apply slAux_nb_term
    decide
  have hdn : slAux (("CCB_DONE: ".data ++ R.data) ++ ['\n']) [] =
      ["CCB_DONE: ".data ++ R.data] := by
    apply slAux_nb_term
    intro c hc
    rcases List.mem_append.mp hc with h | h
    · exact (by decide : ∀ c ∈ "CCB_DONE: ".data, isLineBoundary c = false) c h
    · exact hRnb c h
  have hlastseg : slAux ("CCB_DONE: ".data ++ R.data) [] = ["CCB_DONE: ".data ++ R.data] := by
    apply slAux_nb
    · intro c hc
      rcases List.mem_append.mp hc with h | h
      · exact (by decide : ∀ c ∈ "CCB_DONE: ".data, isLineBoundary c = false) c h
      · exact hRnb c h
    · simp [show ("CCB_DONE: " : String).data = 'C' :: 'C' :: 'B' :: '_' :: 'D' :: 'O' :: 'N' :: 'E' :: ':' :: [' '] from rfl]
  unfold pyLines pyLinesL
  rw [hdata, slAux_chain]
  rw [show (pyRstrip M ++ "\n").data = (pyRstrip M).data ++ ['\n'] from by
    simp [String.data_append]]
  rw [show (X ++ "\n").data = X.data ++ ['\n'] from by
    simp [String.data_append]]
  simp only [List.map_cons, List.map_nil, List.flatten_cons, List.flatten_nil,
    hs0, hnil, hi1, hi2, hi3, hi4, hdn, hlastseg]
  simp only [List.map_append, List.map_cons, List.map_nil, List.append_assoc,
    List.cons_append, List.nil_append, List.append_nil]
  rfl

set_option maxRecDepth 4000 in
/-- C4 (amended): the codec round-trip.  For well-formed `R` and any `X`
without a `CCB_DONE:` line, extracting from the wrapped prompt followed by
`X` and a final `CCB_DONE: R` line returns `X` with leading and trailing
blank lines trimmed and trailing whitespace stripped (the code applies a
final `rstrip`, which the original claim omits). -/
theorem C4_wrap_roundtrip (M R X : String) (hR : wfReqId R = true)
    (hX : ∀ ln ∈ pyLines X, strContains ln "CCB_DONE:" = false) :
    extract_reply_for_req (wrap_codex_prompt M R ++ X ++ "\n" ++ ("CCB_DONE: " ++ R)) R
      = pyRstrip (spec_trimBlankLines X) := by
  have hdec := pyLines_C4_decomp M R X hR
  set T := wrap_codex_prompt M R ++ X ++ "\n" ++ ("CCB_DONE: " ++ R) with hT
  set Lm := pyLines (pyRstrip M ++ "\n") with hLm
  set Lx := pyLines (X ++ "\n") with hLx
  set D := "CCB_DONE: " ++ R with hD
  set H : List String := ["CCB_REQ_ID: " ++ R, ""] ++ Lm ++
      ["", "IMPORTANT:", "- Reply normally.", "- Reply normally, in English.",
       "- End your reply with this exact final line (verbatim, on its own line):"] with hH
  have hL : pyLines T = H ++ D :: (Lx ++ [D]) := by
    rw [hdec]
    simp [hH, List.append_assoc]
  have hLxDone : ∀ ln ∈ Lx, isAnyCcbDoneLine ln = false := by
    intro ln hln
    have hnc : strContains ln "CCB_DONE:" = false ∨ ln = "" := by
      rcases pyLines_term_cases X with hc | hc
      · rw [hLx] at hln
        rw [hc] at hln
        exact Or.inl (hX ln hln)
      · rw [hLx] at hln
        rw [hc] at hln
        rcases List.mem_append.mp hln with h | h
        · exact Or.inl (hX ln h)
        · exact Or.inr (List.mem_singleton.mp h)
    rcases hnc with h | h
    · cases hd : isAnyCcbDoneLine ln
      · rfl
      · have := anyDone_contains ln hd
        rw [h] at this
        exact absurd this (by simp)
    · rw [h]
      decide
  have hDdone : isAnyCcbDoneLine D = true := anyDone_done_line R hR
  have hDtgt : targetMatchCI R D = true := target_done_line R
  have hlen : (pyLines T).length = H.length + 2 + Lx.length := by
    rw [hL]
    simp
    omega
  have hmain := extract_reply_eq_between T R H.length (H.length + 1 + Lx.length)
    (by omega)
    (by omega)
    (by rw [hL, List.getD_append_right _ _ _ _ (Nat.le_refl _), Nat.sub_self]; exact hDdone)
    (by rw [hL, List.getD_append_right _ _ _ _ (by omega)]
        rw [show H.length + 1 + Lx.length - H.length = Lx.length + 1 from by omega]
        rw [List.getD_cons_succ, List.getD_append_right _ _ _ _ (Nat.le_refl _), Nat.sub_self]
        exact hDdone)
    (by rw [hL, List.getD_append_right _ _ _ _ (by omega)]
        rw [show H.length + 1 + Lx.length - H.length = Lx.length + 1 from by omega]
        rw [List.getD_cons_succ, List.getD_append_right _ _ _ _ (Nat.le_refl _), Nat.sub_self]
        exact hDtgt)
    (by intro k hk1 hk2
        rw [hlen] at hk2
        omega)
    (by intro k hk1 hk2
        rw [hL, List.getD_append_right _ _ _ _ (by omega)]
        rw [show k - H.length = (k - H.length - 1) + 1 from by omega]
        rw [List.getD_cons_succ]
        rw [List.getD_append _ _ _ _ (by omega)]
        have hmem : Lx.getD (k - H.length - 1) "" ∈ Lx := by
          rw [List.getD_eq_getElem _ _ (by omega)]
          exact List.getElem_mem _
        exact hLxDone _ hmem)
  rw [hmain]
  have hseg : segBetween (pyLines T) H.length (H.length + 1 + Lx.length) = Lx := by
    unfold segBetween
    rw [show H.length + 1 + Lx.length - (H.length + 1) = Lx.length from by omega]
    rw [hL]
    rw [show H ++ D :: (Lx ++ [D]) = (H ++ [D]) ++ (Lx ++ [D]) from by simp]
    rw [show H.length + 1 = (H ++ [D]).length from by simp]
    rw [List.drop_left]
    simp
  rw [hseg]
  have htrim : trimBlankLines Lx = trimBlankLines (pyLines X) := by
    rcases pyLines_term_cases X with hc | hc
    · rw [hLx, hc]
    · rw [hLx, hc]
      exact trimBlankLines_append_empty (pyLines X)
  rw [htrim]
  rfl

end CCB

namespace CCB

/-- C2 (amended): when line `j` holds the last `CCB_DONE: B` marker of the
text and line `i`, a `CCB_DONE: A` line, is the closest preceding done line,
`extract_reply_for_req` returns exactly the lines strictly between them,
with leading and trailing blank lines trimmed and trailing whitespace
stripped (the code applies a final `rstrip`, which the original claim
omits). -/
theorem C2_extract_between_previous_done (text A B : String) (i j : Nat)
    (hij : i < j) (hj : j < (pyLines text).length)
    (_hA : targetMatchCI A ((pyLines text).getD i "") = true)
    (hiD : isAnyCcbDoneLine ((pyLines text).getD i "") = true)
    (hjD : isAnyCcbDoneLine ((pyLines text).getD j "") = true)
    (hjB : targetMatchCI B ((pyLines text).getD j "") = true)
    (hlast : ∀ k, j < k → k < (pyLines text).length →
      ¬(isAnyCcbDoneLine ((pyLines text).getD k "") = true ∧
        targetMatchCI B ((pyLines text).getD k "") = true))
    (hmid : ∀ k, i < k → k < j → isAnyCcbDoneLine ((pyLines text).getD k "") = false) :
    extract_reply_for_req text B =
      pyRstrip (joinNL (trimBlankLines (segBetween (pyLines text) i j))) :=
  extract_reply_eq_between text B i j hij hj hiD hjD hjB hlast hmid

/-- Witness for C2 (amended), on the spec's scenario S1. -/
theorem C2_extract_between_previous_done_witness :
    targetMatchCI "20260101-000000-000-1-1"
      ((pyLines "CCB_DONE: 20260101-000000-000-1-1\nhello world\nCCB_DONE: 20260101-000000-000-1-2").getD 0 "") = true ∧
    extract_reply_for_req
      "CCB_DONE: 20260101-000000-000-1-1\nhello world\nCCB_DONE: 20260101-000000-000-1-2"
      "20260101-000000-000-1-2" = "hello world" := by
  refine ⟨by decide, ?_⟩
  have h := C2_extract_between_previous_done
    "CCB_DONE: 20260101-000000-000-1-1\nhello world\nCCB_DONE: 20260101-000000-000-1-2"
    "20260101-000000-000-1-1" "20260101-000000-000-1-2" 0 2
    (by decide) (by decide) (by decide) (by decide) (by decide) (by decide)
    (by intro k h1 h2
        rw [show (pyLines "CCB_DONE: 20260101-000000-000-1-1\nhello world\nCCB_DONE: 20260101-000000-000-1-2").length = 3 from by decide] at h2
        omega)
    (by intro k h1 h2
        have hk : k = 1 := by omega
        subst hk
        decide)
  exact h.trans (by decide)

/-- Counterexample to C2 as stated: in this text the `CCB_DONE: A` line
(line 0) is immediately before a `CCB_DONE: B` line (line 1), yet
`extract_reply_for_req` does not return the (empty) text strictly between
those two lines, because it anchors on the last `CCB_DONE: B`
occurrence. -/
theorem C2_counterexample :
    isAnyCcbDoneLine ((pyLines "CCB_DONE: 20260101-000000-000-1-1\nCCB_DONE: 20260101-000000-000-1-2\ny\nCCB_DONE: 20260101-000000-000-1-2").getD 0 "") = true ∧
    targetMatchCI "20260101-000000-000-1-1"
      ((pyLines "CCB_DONE: 20260101-000000-000-1-1\nCCB_DONE: 20260101-000000-000-1-2\ny\nCCB_DONE: 20260101-000000-000-1-2").getD 0 "") = true ∧
    isAnyCcbDoneLine ((pyLines "CCB_DONE: 20260101-000000-000-1-1\nCCB_DONE: 20260101-000000-000-1-2\ny\nCCB_DONE: 20260101-000000-000-1-2").getD 1 "") = true ∧
    targetMatchCI "20260101-000000-000-1-2"
      ((pyLines "CCB_DONE: 20260101-000000-000-1-1\nCCB_DONE: 20260101-000000-000-1-2\ny\nCCB_DONE: 20260101-000000-000-1-2").getD 1 "") = true ∧
    segBetween (pyLines "CCB_DONE: 20260101-000000-000-1-1\nCCB_DONE: 20260101-000000-000-1-2\ny\nCCB_DONE: 20260101-000000-000-1-2") 0 1 = [] ∧
    extract_reply_for_req
      "CCB_DONE: 20260101-000000-000-1-1\nCCB_DONE: 20260101-000000-000-1-2\ny\nCCB_DONE: 20260101-000000-000-1-2"
      "20260101-000000-000-1-2" = "y" ∧
    ("y" : String) ≠
      joinNL (trimBlankLines (segBetween (pyLines "CCB_DONE: 20260101-000000-000-1-1\nCCB_DONE: 20260101-000000-000-1-2\ny\nCCB_DONE: 20260101-000000-000-1-2") 0 1)) := by
  decide

/-- Witness for C3. -/
theorem C3_other_turns_extract_empty_witness :
    (∃ ln ∈ pyLines "CCB_DONE: 20260101-000000-000-1-1\nsomething",
      isAnyCcbDoneLine ln = true) ∧
    extract_reply_for_req "CCB_DONE: 20260101-000000-000-1-1\nsomething"
      "20260101-000000-000-1-2" = "" :=
  ⟨by decide, C3_other_turns_extract_empty _ _ (by decide) (by decide)⟩

/-- Counterexample to C4 as stated: with a trailing space in `X` the
extracted reply is `X` trimmed of blank lines and additionally
right-stripped, not `X` with only blank lines trimmed. -/
theorem C4_counterexample :
    (∀ ln ∈ pyLines "a ", strContains ln "CCB_DONE:" = false) ∧
    wfReqId "20260101-000000-000-1-1" = true ∧
    extract_reply_for_req
      (wrap_codex_prompt "" "20260101-000000-000-1-1" ++ "a " ++ "\n" ++
        ("CCB_DONE: " ++ "20260101-000000-000-1-1"))
      "20260101-000000-000-1-1" = "a" ∧
    spec_trimBlankLines "a " = "a " ∧
    ("a" : String) ≠ "a " := by
  decide

/-- Witness for C4 (amended). -/
theorem C4_wrap_roundtrip_witness :
    wfReqId "20260101-000000-000-1-1" = true ∧
    extract_reply_for_req
      (wrap_codex_prompt "msg" "20260101-000000-000-1-1" ++ "hello\nworld" ++ "\n" ++
        ("CCB_DONE: " ++ "20260101-000000-000-1-1"))
      "20260101-000000-000-1-1" = "hello\nworld" :=
  ⟨by decide,
    (C4_wrap_roundtrip "msg" "20260101-000000-000-1-1" "hello\nworld"
      (by decide) (by decide)).trans (by decide)⟩

end CCB

namespace CCB

theorem processEvents_inv (reqId : String) (collectGrace tB startedAt : Int) :
    ∀ (evs : List (String × String)) (st st2 : WaitSt) (d : Bool) (dm : Option Int),
    processEvents reqId collectGrace tB startedAt evs st = (st2, d, dm) →
    st2.fallbackScan = st.fallbackScan ∧ st2.rebounded = st.rebounded ∧
    st2.lastPaneCheck = st.lastPaneCheck
  | [], st, st2, d, dm, h => by
    simp only [processEvents] at h
    obtain ⟨h1, h2, h3⟩ := Prod.mk.injEq .. ▸ h
    rw [← h1]
    exact ⟨rfl, rfl, rfl⟩
  | (role, text) :: rest, st, st2, d, dm, h => by
    simp only [processEvents] at h
    by_cases hrole : role = "user"
    · rw [if_pos hrole] at h
      by_cases hanch : strContains text ("CCB_REQ_ID: " ++ reqId) = true
      · rw [if_pos hanch] at h
        have hrec := processEvents_inv _ _ _ _ _ _ _ _ _ h
        exact hrec
      · rw [if_neg hanch] at h
        have hrec := processEvents_inv _ _ _ _ _ _ _ _ _ h
        exact hrec
    · rw [if_neg hrole] at h
      by_cases hass : ¬role = "assistant"
      · rw [if_pos hass] at h
        have hrec := processEvents_inv _ _ _ _ _ _ _ _ _ h
        exact hrec
      · rw [if_neg hass] at h
        by_cases hgrace : (!st.anchorSeen && decide (tB < collectGrace)) = true
        · rw [if_pos hgrace] at h
          have hrec := processEvents_inv _ _ _ _ _ _ _ _ _ h
          exact hrec
        · rw [if_neg hgrace] at h
          by_cases hdone : is_done_text (joinNL (st.chunks ++ [text])) reqId = true
          · rw [if_pos hdone] at h
            obtain ⟨h1, h2, h3⟩ := Prod.mk.injEq .. ▸ h
            rw [← h1]
            exact ⟨rfl, rfl, rfl⟩
          · rw [if_neg hdone] at h
            have hrec := processEvents_inv _ _ _ _ _ _ _ _ _ h
            exact hrec

end CCB


namespace CCB

theorem paneAdjust_rebounded (due : Bool) (s : WaitStep) (st : WaitSt) :
    (paneAdjust due s st).rebounded = st.rebounded := by
  unfold paneAdjust
  split <;> rfl

theorem paneAdjust_anchorSeen (due : Bool) (s : WaitStep) (st : WaitSt) :
    (paneAdjust due s st).anchorSeen = st.anchorSeen := by
  unfold paneAdjust
  split <;> rfl

theorem paneAdjust_fallbackScan (due : Bool) (s : WaitStep) (st : WaitSt) :
    (paneAdjust due s st).fallbackScan = st.fallbackScan := by
  unfold paneAdjust
  split <;> rfl

theorem waitLoop_spec (reqId sessionKey : String) (startedAt : Int) (deadline : Option Int)
    (graceA collectGrace paneInterval : Int) :
    ∀ (steps : List WaitStep) (st : WaitSt) (ix : Nat) (rb : List Nat) (w : WaitOut),
    waitLoop reqId sessionKey startedAt deadline graceA collectGrace paneInterval
      steps st ix rb = some w →
    ((w.result.done_seen = true ↔ w.result.exit_code = 0) ∧
      (w.result.exit_code = 0 ∨ w.result.exit_code = 1 ∨ w.result.exit_code = 2)) ∧
    (w.paneDied = true → w.result.exit_code = 1 ∧ w.result.done_seen = false ∧
      w.result.reply = "Claude pane died during request") ∧
    (∃ extra : List Nat, w.rebinds = rb ++ extra ∧ extra.length ≤ 1 ∧
      (st.rebounded = true → extra = []) ∧
      (∀ n ∈ extra, ∃ k s2, steps.get? k = some s2 ∧ n = ix + k ∧
        s2.events = [] ∧ graceA ≤ s2.tB) ∧
      w.result.fallback_scan = (st.fallbackScan || !extra.isEmpty))
  | [], st, ix, rb, w, h => by
    simp [waitLoop] at h
  | s :: rest, st, ix, rb, w, h => by
    simp only [waitLoop] at h
    by_cases hdl : deadlineHit deadline s.tA = true
    · rw [if_pos hdl] at h
      obtain rfl : w = _ := (Option.some.inj h).symm
      refine ⟨⟨by simp [finalResult], by simp [finalResult]⟩, by simp, ?_⟩
      exact ⟨[], by simp, by simp, by simp, by simp, by simp [finalResult]⟩
    · rw [if_neg hdl] at h
      by_cases hpd : (decide (paneInterval ≤ s.tA - st.lastPaneCheck) && !s.paneAlive) = true
      · rw [if_pos hpd] at h
        obtain rfl : w = _ := (Option.some.inj h).symm
        refine ⟨⟨by simp [paneDiedResult], by simp [paneDiedResult]⟩,
          by simp [paneDiedResult], ?_⟩
        exact ⟨[], by simp, by simp, by simp, by simp, by simp [paneDiedResult]⟩
      · rw [if_neg hpd] at h
        by_cases hev : s.events.isEmpty = true
        · rw [if_pos hev] at h
          by_cases hrbnd :
              (!(paneAdjust (decide (paneInterval ≤ s.tA - st.lastPaneCheck)) s st).rebounded &&
               !(paneAdjust (decide (paneInterval ≤ s.tA - st.lastPaneCheck)) s st).anchorSeen &&
               decide (graceA ≤ s.tB)) = true
          · rw [if_pos hrbnd] at h
            obtain ⟨⟨hiff, hrange⟩, hpane, extra, hre, hlen, hreb, hall, hfb⟩ :=
              waitLoop_spec reqId sessionKey startedAt deadline graceA collectGrace
                paneInterval rest _ (ix + 1) (rb ++ [ix]) w h
            have hextra : extra = [] := hreb rfl
            subst hextra
            refine ⟨⟨hiff, hrange⟩, hpane, ⟨[ix], by simpa using hre, by simp, ?_, ?_, ?_⟩⟩
            · intro hstr
              exfalso
              simp only [Bool.and_eq_true, Bool.not_eq_true'] at hrbnd
              rw [paneAdjust_rebounded] at hrbnd
              rw [hstr] at hrbnd
              exact absurd hrbnd.1.1 (by decide)
            · intro n hn
              have hnix : n = ix := List.mem_singleton.mp hn
              subst hnix
              refine ⟨0, s, rfl, by omega, List.isEmpty_iff.mp hev, ?_⟩
              simp only [Bool.and_eq_true, decide_eq_true_eq] at hrbnd
              exact hrbnd.2
            · rw [hfb]
              simp
          · rw [if_neg hrbnd] at h
            obtain ⟨⟨hiff, hrange⟩, hpane, extra, hre, hlen, hreb, hall, hfb⟩ :=
              waitLoop_spec reqId sessionKey startedAt deadline graceA collectGrace
                paneInterval rest _ (ix + 1) rb w h
            refine ⟨⟨hiff, hrange⟩, hpane, ⟨extra, hre, hlen, ?_, ?_, ?_⟩⟩
            · intro hstr
              apply hreb
              rw [paneAdjust_rebounded]
              exact hstr
            · intro n hn
              obtain ⟨k, s2, hk, hnk, he2, hg2⟩ := hall n hn
              exact ⟨k + 1, s2, by simpa using hk, by omega, he2, hg2⟩
            · rw [hfb, paneAdjust_fallbackScan]
        · rw [if_neg hev] at h
          rcases hpe : processEvents reqId collectGrace s.tB startedAt s.events
              (paneAdjust (decide (paneInterval ≤ s.tA - st.lastPaneCheck)) s st) with ⟨st2, d2, dm2⟩
          rw [hpe] at h
          obtain ⟨hfb2, hreb2, _⟩ := processEvents_inv _ _ _ _ _ _ _ _ _ hpe
          cases d2 with
          | true =>
            obtain rfl : w = _ := (Option.some.inj h).symm
            refine ⟨⟨by simp [finalResult], by simp [finalResult]⟩, by simp, ?_⟩
            refine ⟨[], by simp, by simp, by simp, by simp, ?_⟩
            simp only [finalResult]
            rw [hfb2, paneAdjust_fallbackScan]
            simp
          | false =>
            obtain ⟨⟨hiff, hrange⟩, hpane, extra, hre, hlen, hreb, hall, hfb⟩ :=
              waitLoop_spec reqId sessionKey startedAt deadline graceA collectGrace
                paneInterval rest st2 (ix + 1) rb w h
            refine ⟨⟨hiff, hrange⟩, hpane, ⟨extra, hre, hlen, ?_, ?_, ?_⟩⟩
            · intro hstr
              apply hreb
              rw [hreb2, paneAdjust_rebounded]
              exact hstr
            · intro n hn
              obtain ⟨k, s2, hk, hnk, he2, hg2⟩ := hall n hn
              exact ⟨k + 1, s2, by simpa using hk, by omega, he2, hg2⟩
            · rw [hfb, hfb2, paneAdjust_fallbackScan]

end CCB

namespace CCB

/-- C1: for every outcome of `handle_task`, `done_seen = true` holds exactly
when `exit_code = 0`; the exit code is always 0, 1 or 2; the early error
returns (no session, pane unavailable, backend missing) and the pane-death
return all have `done_seen = false` with exit code 1; the timeout return,
having `done_seen = false`, has a nonzero exit code by the equivalence. -/
theorem C1_done_seen_iff_exit_zero (env : TaskEnv) (task : QueuedTask) (o : HandleOut)
    (h : handle_task env task = some o) :
    (o.result.done_seen = true ↔ o.result.exit_code = 0) ∧
    (o.result.exit_code = 0 ∨ o.result.exit_code = 1 ∨ o.result.exit_code = 2) ∧
    (o.earlyError = true → o.result.done_seen = false ∧ o.result.exit_code = 1) ∧
    (o.paneDied = true → o.result.done_seen = false ∧ o.result.exit_code = 1) := by
  unfold handle_task at h
  by_cases hs : (!env.sessionFound) = true
  · rw [if_pos hs] at h
    obtain rfl : _ = o := Option.some.inj h
    refine ⟨by simp, by simp, by simp, by simp⟩
  · rw [if_neg hs] at h
    by_cases hp : (!env.ensurePaneOk) = true
    · rw [if_pos hp] at h
      obtain rfl : _ = o := Option.some.inj h
      refine ⟨by simp, by simp, by simp, by simp⟩
    · rw [if_neg hp] at h
      by_cases hb : (!env.backendOk) = true
      · rw [if_pos hb] at h
        obtain rfl : _ = o := Option.some.inj h
        refine ⟨by simp, by simp, by simp, by simp⟩
      · rw [if_neg hb] at h
        rcases hw : waitLoop task.req_id env.sessionKey env.startedAt (deadlineOf env task)
            (graceAOf env task) (collectGraceOf env task) env.paneCheckInterval
            env.steps (initWaitSt env) 0 [] with _ | w
        · rw [hw] at h
          exact absurd h (by simp)
        · rw [hw] at h
          obtain rfl : _ = o := Option.some.inj h
          obtain ⟨⟨hiff, hrange⟩, hpane, _⟩ :=
            waitLoop_spec _ _ _ _ _ _ _ _ _ _ _ _ hw
          refine ⟨by simpa using hiff, by simpa using hrange, by simp, ?_⟩
          intro hpd
          have h2 := hpane (by simpa using hpd)
          exact ⟨by simpa using h2.2.1, by simpa using h2.1⟩

/-- C1 witness: the healthy one-iteration run `handle_task envW taskW`
completes with `done_seen = true` and exit code 0, and satisfies the
equivalence. -/
theorem C1_done_seen_iff_exit_zero_witness :
    oW.result.done_seen = true ↔ oW.result.exit_code = 0 :=
  (C1_done_seen_iff_exit_zero envW taskW oW (by decide)).1

end CCB

namespace CCB

/-- C5 counterexample: `taskC5` is cancelled before its run starts, yet
`handle_task envC5 taskC5` consumes all three polling iterations (the wait
loop of `_wait_for_response` never reads `task.cancelled`, so it does not
exit at the next polling tick); only the completion notifier is skipped. -/
theorem C5_counterexample :
    taskC5.cancelled = true ∧ handle_task envC5 taskC5 = some oC5 ∧
    oC5.consumed = 3 ∧ oC5.notified = false :=
  ⟨rfl, by decide, rfl, rfl⟩

/-- C5 amended: cancellation only suppresses the completion notifier
(`_finalize_result` checks `task.cancelled` just before notifying); the wait
loop itself never reads the flag, so the cancelled twin of any task runs the
same iterations and produces the same result, with only `notified`
different. -/
theorem C5_cancel_skips_notifier_only (env : TaskEnv) (task : QueuedTask) (o : HandleOut)
    (h : handle_task env task = some o) :
    o.notified = (!task.cancelled && !o.earlyError) ∧
    ∃ o' : HandleOut, handle_task env { task with cancelled := true } = some o' ∧
      o'.notified = false ∧ o'.result = o.result ∧ o'.consumed = o.consumed ∧
      o'.rebinds = o.rebinds ∧ o'.paneDied = o.paneDied := by
  obtain ⟨req, rid, cflag⟩ := task
  unfold handle_task at h ⊢
  by_cases hs : (!env.sessionFound) = true
  · rw [if_pos hs] at h ⊢
    obtain rfl : _ = o := Option.some.inj h
    exact ⟨by simp, _, rfl, rfl, rfl, rfl, rfl, rfl⟩
  · rw [if_neg hs] at h ⊢
    by_cases hp : (!env.ensurePaneOk) = true
    · rw [if_pos hp] at h ⊢
      obtain rfl : _ = o := Option.some.inj h
      exact ⟨by simp, _, rfl, rfl, rfl, rfl, rfl, rfl⟩
    · rw [if_neg hp] at h ⊢
      by_cases hb : (!env.backendOk) = true
      · rw [if_pos hb] at h ⊢
        obtain rfl : _ = o := Option.some.inj h
        exact ⟨by simp, _, rfl, rfl, rfl, rfl, rfl, rfl⟩
      · rw [if_neg hb] at h ⊢
        rcases hw : waitLoop rid env.sessionKey env.startedAt
            (deadlineOf env ⟨req, rid, cflag⟩)
            (graceAOf env ⟨req, rid, cflag⟩) (collectGraceOf env ⟨req, rid, cflag⟩)
            env.paneCheckInterval env.steps (initWaitSt env) 0 [] with _ | w
        · rw [hw] at h
          exact absurd h (by simp)
        · rw [hw] at h
          obtain rfl : _ = o := Option.some.inj h
          have hw' : waitLoop rid env.sessionKey env.startedAt
              (deadlineOf env ⟨req, rid, true⟩)
              (graceAOf env ⟨req, rid, true⟩) (collectGraceOf env ⟨req, rid, true⟩)
              env.paneCheckInterval env.steps (initWaitSt env) 0 [] = some w := hw
          rw [hw']
          exact ⟨by simp, _, rfl, rfl, rfl, rfl, rfl, rfl⟩

/-- C5 amended witness: the uncancelled healthy run `envW`/`taskW` notifies,
and its cancelled twin runs identically except for the notifier. -/
theorem C5_cancel_skips_notifier_only_witness :
    oW.notified = (!taskW.cancelled && !oW.earlyError) :=
  (C5_cancel_skips_notifier_only envW taskW oW (by decide)).1

/-- C9: the permissive rebind of the log reader runs at most once per
request; it runs only at a polling iteration whose event batch is empty and
whose post-poll time has passed the anchor grace deadline (and fallback
scanning is flagged exactly when it ran); hence if every poll returns at
least one event, the reader is never rebuilt, even when the anchor is never
observed. -/
theorem C9_rebind_once (env : TaskEnv) (task : QueuedTask) (o : HandleOut)
    (h : handle_task env task = some o) (hne : o.earlyError = false) :
    o.rebinds.length ≤ 1 ∧
    (∀ n ∈ o.rebinds, ∃ s2 : WaitStep, env.steps.get? n = some s2 ∧
      s2.events = [] ∧ graceAOf env task ≤ s2.tB) ∧
    ((∀ s2 ∈ env.steps, s2.events ≠ []) → o.rebinds = []) ∧
    o.result.fallback_scan = !o.rebinds.isEmpty := by
  unfold handle_task at h
  by_cases hs : (!env.sessionFound) = true
  · rw [if_pos hs] at h
    obtain rfl : _ = o := Option.some.inj h
    exact absurd hne (by simp)
  · rw [if_neg hs] at h
    by_cases hp : (!env.ensurePaneOk) = true
    · rw [if_pos hp] at h
      obtain rfl : _ = o := Option.some.inj h
      exact absurd hne (by simp)
    · rw [if_neg hp] at h
      by_cases hb : (!env.backendOk) = true
      · rw [if_pos hb] at h
        obtain rfl : _ = o := Option.some.inj h
        exact absurd hne (by simp)
      · rw [if_neg hb] at h
        rcases hw : waitLoop task.req_id env.sessionKey env.startedAt (deadlineOf env task)
            (graceAOf env task) (collectGraceOf env task) env.paneCheckInterval
            env.steps (initWaitSt env) 0 [] with _ | w
        · rw [hw] at h
          exact absurd h (by simp)
        · rw [hw] at h
          obtain rfl : _ = o := Option.some.inj h
          obtain ⟨_, _, extra, hre, hlen, _, hall, hfb⟩ :=
            waitLoop_spec _ _ _ _ _ _ _ _ _ _ _ _ hw
          have hre' : w.rebinds = extra := by simpa using hre
          refine ⟨?_, ?_, ?_, ?_⟩
          · show w.rebinds.length ≤ 1
            rw [hre']
            exact hlen
          · intro n hn
            obtain ⟨k, s2, hk, hnk, he2, hg2⟩ := hall n (hre' ▸ hn)
            have hnk' : n = k := by omega
            exact ⟨s2, hnk' ▸ hk, he2, hg2⟩
          · intro hne2
            show w.rebinds = []
            rw [hre']
            rcases hx : extra with _ | ⟨n, rest⟩
            · rfl
            · exfalso
              obtain ⟨k, s2, hk, _, he2, _⟩ := hall n (by rw [hx]; exact List.mem_cons_self _ _)
              exact hne2 s2 (List.get?_mem hk) he2
          · show w.result.fallback_scan = !w.rebinds.isEmpty
            rw [hfb, hre']
            simp [initWaitSt]

/-- C9 witness: the run `envR`/`taskW` rebinds exactly once, at the first
iteration (whose event batch is empty past the anchor grace), and flags
fallback scanning. -/
theorem C9_rebind_once_witness :
    oR.rebinds.length ≤ 1 ∧
    (∀ n ∈ oR.rebinds, ∃ s2 : WaitStep, envR.steps.get? n = some s2 ∧
      s2.events = [] ∧ graceAOf envR taskW ≤ s2.tB) ∧
    ((∀ s2 ∈ envR.steps, s2.events ≠ []) → oR.rebinds = []) ∧
    oR.result.fallback_scan = !oR.rebinds.isEmpty :=
  C9_rebind_once envR taskW oR (by decide) rfl

end CCB

namespace CCB

set_option maxRecDepth 4000 in
theorem postprocess_pane_died (message : String)
    (habc : _wants_abc_sections message = false)
    (hsec : _wants_section_10 message = false) :
    strContains (pyLower (_postprocess_reply message "Claude pane died during request"))
      "pane died" = true := by
  have hbox : _should_fix_box_table message "Claude pane died during request" = false := rfl
  unfold _postprocess_reply
  dsimp only
  rw [hbox, habc, hsec]
  cases _wants_triplet_fences message <;>
  cases _wants_bash_fence message <;>
  cases _wants_text_fence message <;>
  cases _wants_release_notes message <;> decide

end CCB

namespace CCB

/-- C6 counterexample: in the run `envC6`/`taskW` the pane dies mid-wait and
the request finishes with exit code 1 and a reply containing "pane died",
but the completion notifier DOES fire (`_finalize_result` deliberately
notifies even when `done_seen` is false; only cancellation skips it). -/
theorem C6_counterexample :
    handle_task envC6 taskW = some oC6 ∧ oC6.paneDied = true ∧
    oC6.result.exit_code = 1 ∧
    strContains (pyLower oC6.result.reply) "pane died" = true ∧
    oC6.notified = true :=
  ⟨by decide, rfl, rfl, by decide, rfl⟩

/-- C6 amended: when the pane check finds the pane dead mid-wait the request
finishes with exit code 1, `done_seen = false` and the raw reply "Claude
pane died during request"; the returned reply still contains "pane died"
(case-insensitively) as long as the caller's message does not trigger the
`## A/B/C`-section or `Section 1..10` rewrites; but the completion notifier
fires exactly when the task is not cancelled — pane death does not suppress
it. -/
theorem C6_pane_death (env : TaskEnv) (task : QueuedTask) (o : HandleOut)
    (h : handle_task env task = some o) (hpd : o.paneDied = true)
    (habc : _wants_abc_sections task.request.message = false)
    (hsec : _wants_section_10 task.request.message = false) :
    o.result.exit_code = 1 ∧ o.result.done_seen = false ∧
    o.rawReply = "Claude pane died during request" ∧
    strContains (pyLower o.result.reply) "pane died" = true ∧
    o.notified = !task.cancelled := by
  unfold handle_task at h
  by_cases hs : (!env.sessionFound) = true
  · rw [if_pos hs] at h
    obtain rfl : _ = o := Option.some.inj h
    exact absurd hpd (by simp)
  · rw [if_neg hs] at h
    by_cases hp : (!env.ensurePaneOk) = true
    · rw [if_pos hp] at h
      obtain rfl : _ = o := Option.some.inj h
      exact absurd hpd (by simp)
    · rw [if_neg hp] at h
      by_cases hb : (!env.backendOk) = true
      · rw [if_pos hb] at h
        obtain rfl : _ = o := Option.some.inj h
        exact absurd hpd (by simp)
      · rw [if_neg hb] at h
        rcases hw : waitLoop task.req_id env.sessionKey env.startedAt (deadlineOf env task)
            (graceAOf env task) (collectGraceOf env task) env.paneCheckInterval
            env.steps (initWaitSt env) 0 [] with _ | w
        · rw [hw] at h
          exact absurd h (by simp)
        · rw [hw] at h
          obtain rfl : _ = o := Option.some.inj h
          obtain ⟨_, hpane, _⟩ := waitLoop_spec _ _ _ _ _ _ _ _ _ _ _ _ hw
          obtain ⟨hexit, hdone, hreply⟩ := hpane (by simpa using hpd)
          refine ⟨by simpa using hexit, by simpa using hdone, by simpa using hreply, ?_, by simp⟩
          show strContains (pyLower (_postprocess_reply task.request.message w.result.reply))
            "pane died" = true
          rw [hreply]
          exact postprocess_pane_died task.request.message habc hsec

/-- C6 amended witness: the pane-death run `envC6`/`taskW` exits 1 with the
pane-died reply and, being uncancelled, notifies. -/
theorem C6_pane_death_witness :
    oC6.result.exit_code = 1 ∧ oC6.result.done_seen = false ∧
    oC6.rawReply = "Claude pane died during request" ∧
    strContains (pyLower oC6.result.reply) "pane died" = true ∧
    oC6.notified = !taskW.cancelled :=
  C6_pane_death envC6 taskW oC6 (by decide) rfl (by decide) (by decide)

end CCB

namespace CCB

theorem isPrefixOf_append_self : ∀ (l m : List Char), l.isPrefixOf (l ++ m) = true
  | [], m => by cases m <;> rfl
  | c :: l2, m => by
    simp only [List.cons_append, List.isPrefixOf, beq_self_eq_true, Bool.true_and]
    exact isPrefixOf_append_self l2 m

theorem rstrip_isPrefixOf (pre r : List Char)
    (hpre : pre.reverse.dropWhile isPyWs = pre.reverse) :
    pre.isPrefixOf (rstripL (pre ++ r)) = true := by
  unfold rstripL
  rw [List.reverse_append]
  by_cases hr : r.reverse.dropWhile isPyWs = []
  · rw [dropWhile_append_nil _ _ _ hr, hpre, List.reverse_reverse]
    have h0 := isPrefixOf_append_self pre []
    rwa [List.append_nil] at h0
  · rw [dropWhile_append_ne _ _ _ hr, List.reverse_append, List.reverse_reverse]
    exact isPrefixOf_append_self pre _

theorem fix_release_notes_header (reply : String) :
    pyStartsWith (_fix_release_notes reply) "### Release Notes" = true := by
  unfold _fix_release_notes
  dsimp only
  unfold pyStartsWith pyRstrip
  show ("### Release Notes").data.isPrefixOf
    (rstripL (joinNL ("### Release Notes" :: _ :: _)).data) = true
  rw [show ∀ (b : String) (l : List String), joinNL ("### Release Notes" :: b :: l) =
      "### Release Notes" ++ ("\n" ++ joinNL (b :: l)) from fun b l => rfl]
  rw [show ∀ s : String, ("### Release Notes" ++ s).data =
      ("### Release Notes").data ++ s.data from fun s => rfl]
  exact rstrip_isPrefixOf _ _ (by decide)

end CCB

namespace CCB

/-- C10 counterexample: the extracted reply of `envC10`/`taskC10` contains
both "release notes" and "summary:" (case-insensitive), yet the returned
reply is the empty string — the later `## A/B/C`-section rewrite (triggered
by the caller's message) erases the canonical block again, so the reply does
not start with "### Release Notes". -/
theorem C10_counterexample :
    _looks_like_release_notes_reply oC10.rawReply = true ∧
    handle_task envC10 taskC10 = some oC10 ∧
    oC10.result.reply = "" ∧
    pyStartsWith oC10.result.reply "### Release Notes" = false :=
  ⟨by decide, by decide, rfl, by decide⟩

/-- C10 amended: every non-early-error result's reply is the post-processing
chain applied to the extracted reply, and when the extracted reply looks
like a release-notes reply the returned reply is
`_fix_release_notes` of it — starting with "### Release Notes" — provided
the message triggers no other rewrite stage (box-table, fence, A/B/C or
Section 1..10), even when the caller's message never asked for release-notes
formatting. -/
theorem C10_release_notes_rewrite (env : TaskEnv) (task : QueuedTask) (o : HandleOut)
    (h : handle_task env task = some o) (hne : o.earlyError = false)
    (hbox : _should_fix_box_table task.request.message o.rawReply = false)
    (ht : _wants_triplet_fences task.request.message = false)
    (hbash : _wants_bash_fence task.request.message = false)
    (htext : _wants_text_fence task.request.message = false)
    (hlooks : _looks_like_release_notes_reply o.rawReply = true)
    (habc : _wants_abc_sections task.request.message = false)
    (hsec : _wants_section_10 task.request.message = false) :
    o.result.reply = _postprocess_reply task.request.message o.rawReply ∧
    o.result.reply = _fix_release_notes o.rawReply ∧
    pyStartsWith o.result.reply "### Release Notes" = true := by
  unfold handle_task at h
  by_cases hs : (!env.sessionFound) = true
  · rw [if_pos hs] at h
    obtain rfl : _ = o := Option.some.inj h
    exact absurd hne (by simp)
  · rw [if_neg hs] at h
    by_cases hp : (!env.ensurePaneOk) = true
    · rw [if_pos hp] at h
      obtain rfl : _ = o := Option.some.inj h
      exact absurd hne (by simp)
    · rw [if_neg hp] at h
      by_cases hb : (!env.backendOk) = true
      · rw [if_pos hb] at h
        obtain rfl : _ = o := Option.some.inj h
        exact absurd hne (by simp)
      · rw [if_neg hb] at h
        rcases hw : waitLoop task.req_id env.sessionKey env.startedAt (deadlineOf env task)
            (graceAOf env task) (collectGraceOf env task) env.paneCheckInterval
            env.steps (initWaitSt env) 0 [] with _ | w
        · rw [hw] at h
          exact absurd h (by simp)
        · rw [hw] at h
          obtain rfl : _ = o := Option.some.inj h
          dsimp only at hbox hlooks ⊢
          have h2 : _postprocess_reply task.request.message w.result.reply =
              _fix_release_notes w.result.reply := by
            unfold _postprocess_reply
            dsimp only
            rw [hbox, ht, hbash, htext, habc, hsec]
            simp only [Bool.false_eq_true, if_false]
            rw [hlooks]
            simp
          exact ⟨rfl, h2, h2 ▸ fix_release_notes_header _⟩

/-- C10 amended witness: with the plain message "hi" (which asks for
nothing) the looks-like-release-notes extracted reply of `envC10` is still
rewritten into the canonical block. -/
theorem C10_release_notes_rewrite_witness :
    oC10b.result.reply = _postprocess_reply taskC10b.request.message oC10b.rawReply ∧
    oC10b.result.reply = _fix_release_notes oC10b.rawReply ∧
    pyStartsWith oC10b.result.reply "### Release Notes" = true :=
  C10_release_notes_rewrite envC10 taskC10b oC10b (by decide) rfl (by decide)
    (by decide) (by decide) (by decide) (by decide) (by decide) (by decide)

end CCB

namespace CCB

theorem should_overwrite_eq_false (fs : Fs) (cur cand : String) (mc mcur : Int)
    (hex : fs.pathExists cur = true) (hc : fs.stat cand = some mc)
    (hcu : fs.stat cur = some mcur) (hle : mc ≤ mcur) :
    _should_overwrite_binding fs (some cur) cand = false := by
  unfold _should_overwrite_binding
  show (if (!fs.pathExists cur) = true then true
    else match fs.stat cand, fs.stat cur with
      | some mc, some mcur => decide (mcur < mc)
      | _, _ => true) = false
  rw [hex, hc, hcu]
  simp only [Bool.not_true, Bool.false_eq_true, if_false]
  exact decide_eq_false (Int.not_lt.mpr hle)

theorem scanStage_sid (e : RefreshEnv) (cand : String)
    (hso : _should_overwrite_binding e.fs e.currentPath cand = false) :
    ∀ needScan, (refreshScanStage e needScan).newPath = some cand →
    ∃ s, (refreshScanStage e needScan).newSid = some s ∧ e.currentSid ≠ some s := by
  intro needScan hupd
  unfold refreshScanStage at hupd ⊢
  by_cases hns : (!needScan) = true
  · rw [if_pos hns] at hupd
    exact absurd hupd (by simp [noRefresh])
  · rw [if_neg hns] at hupd ⊢
    rcases hsl : e.scanLog with _ | clog
    · rw [hsl] at hupd
      exact absurd hupd (by simp [noRefresh])
    · rw [hsl] at hupd
      dsimp only at hupd ⊢
      by_cases hpe : (!e.fs.pathExists clog) = true
      · rw [if_pos hpe] at hupd
        exact absurd hupd (by simp [noRefresh])
      · rw [if_neg hpe] at hupd ⊢
        by_cases hcond : (_should_overwrite_binding e.fs e.currentPath clog ||
            (match e.scanSid with
             | some s => decide (e.currentSid ≠ some s)
             | none => false)) = true
        · rw [if_pos hcond] at hupd ⊢
          have hcc : clog = cand := by simpa using hupd
          subst hcc
          rw [hso, Bool.false_or] at hcond
          rcases hss : e.scanSid with _ | s
          · rw [hss] at hcond
            exact absurd hcond (by simp)
          · rw [hss] at hcond
            exact ⟨s, by simp [hss], by simpa using hcond⟩
        · rw [if_neg hcond] at hupd
          exact absurd hupd (by simp [noRefresh])

theorem indexStage_sid (e : RefreshEnv) (cand : String)
    (hso : _should_overwrite_binding e.fs e.currentPath cand = false) :
    ∀ forceScan ilogEff, (refreshIndexStage e forceScan ilogEff).newPath = some cand →
    ∃ s, (refreshIndexStage e forceScan ilogEff).newSid = some s ∧
      e.currentSid ≠ some s := by
  intro forceScan ilogEff hupd
  unfold refreshIndexStage at hupd ⊢
  dsimp only at hupd ⊢
  rcases hix : e.indexSession with _ | ipath
  · rw [hix] at hupd
    exact scanStage_sid e cand hso _ hupd
  · rw [hix] at hupd
    dsimp only at hupd ⊢
    by_cases hpe : e.fs.pathExists ipath = true
    · rw [if_pos hpe] at hupd ⊢
      by_cases hcond : (_should_overwrite_binding e.fs e.currentPath ipath ||
          decide (e.currentSid ≠ some (pathStem ipath))) = true
      · rw [if_pos hcond] at hupd ⊢
        have hcc : ipath = cand := by simpa using hupd
        subst hcc
        rw [hso, Bool.false_or] at hcond
        exact ⟨pathStem ipath, by simp, by simpa using hcond⟩
      · rw [if_neg hcond] at hupd ⊢
        by_cases hfs : (!forceScan) = true
        · rw [if_pos hfs] at hupd
          exact absurd hupd (by simp [noRefresh])
        · rw [if_neg hfs] at hupd ⊢
          exact scanStage_sid e cand hso _ hupd
    · rw [if_neg hpe] at hupd ⊢
      exact scanStage_sid e cand hso _ hupd

/-- C7 amended: a binding refresh replaces the still-existing, readable
current log with a candidate whose mtime is not strictly newer only when
the bound session id changes: under those mtime hypotheses the written
session id always differs from the current one. -/
theorem C7_no_downgrade_only_on_sid_change (e : RefreshEnv) (forceScan : Bool)
    (cur cand : String) (mc mcur : Int)
    (hcurp : e.currentPath = some cur)
    (hex : e.fs.pathExists cur = true)
    (hstatc : e.fs.stat cand = some mc)
    (hstatcur : e.fs.stat cur = some mcur)
    (hle : mc ≤ mcur)
    (hupd : (_refresh_claude_log_binding e forceScan).newPath = some cand) :
    ∃ s : String, (_refresh_claude_log_binding e forceScan).newSid = some s ∧
      e.currentSid ≠ some s := by
  have hso : _should_overwrite_binding e.fs e.currentPath cand = false := by
    rw [hcurp]
    exact should_overwrite_eq_false e.fs cur cand mc mcur hex hstatc hstatcur hle
  unfold _refresh_claude_log_binding at hupd ⊢
  rcases his : e.intendedSid with _ | sid
  · rw [his] at hupd
    exact indexStage_sid e cand hso forceScan none hupd
  · rw [his] at hupd
    rcases hil : e.intendedLog with _ | ilog
    · rw [hil] at hupd
      exact indexStage_sid e cand hso forceScan none hupd
    · rw [hil] at hupd
      dsimp only at hupd ⊢
      by_cases hpe : e.fs.pathExists ilog = true
      · rw [if_pos hpe] at hupd ⊢
        by_cases hcond : (_should_overwrite_binding e.fs e.currentPath ilog ||
            decide (e.currentSid ≠ some sid)) = true
        · rw [if_pos hcond] at hupd ⊢
          have hcc : ilog = cand := by simpa using hupd
          subst hcc
          rw [hso, Bool.false_or] at hcond
          exact ⟨sid, by simp, by simpa using hcond⟩
        · rw [if_neg hcond] at hupd
          exact absurd hupd (by simp [noRefresh])
      · rw [if_neg hpe] at hupd ⊢
        exact indexStage_sid e cand hso forceScan (some ilog) hupd

/-- C7 counterexample: the current binding points at the still-existing log
`cur.jsonl` with mtime 100; the sessions index names session `B` on
`idx/B.jsonl` with mtime 50; the refresh overwrites the binding with the
strictly older log because the session id differs. -/
theorem C7_counterexample :
    fsC7.pathExists "cur.jsonl" = true ∧
    fsC7.stat "cur.jsonl" = some 100 ∧
    fsC7.stat "idx/B.jsonl" = some 50 ∧
    _refresh_claude_log_binding eC7 false =
      { updated := true, newPath := some "idx/B.jsonl", newSid := some "B" } :=
  ⟨rfl, rfl, rfl, by decide⟩

/-- C7 amended witness: in the concrete downgrade run the written session id
(`B`) indeed differs from the current one (`A`). -/
theorem C7_no_downgrade_only_on_sid_change_witness :
    ∃ s : String, (_refresh_claude_log_binding eC7 false).newSid = some s ∧
      eC7.currentSid ≠ some s :=
  C7_no_downgrade_only_on_sid_change eC7 false "cur.jsonl" "idx/B.jsonl" 50 100
    rfl rfl rfl rfl (by decide) (by decide)

end CCB

namespace CCB

theorem normalize_fixed (env : PathEnv) (s0 : String)
    (hstrip : pyStrip s0 = s0)
    (htilde : pyStartsWith s0 "~" = false)
    (hbs : replBackslash s0 = s0)
    (habs : pyStartsWith s0 "/" = true ∨ winDriveMatch s0 = true)
    (hdd : pyStartsWith s0 "//" = false)
    (hmnt : mntMatch s0 = none)
    (hmsys : msysMatch s0 = none)
    (hnp : posix_normpath s0 = s0)
    (hlow : toLowerCh (s0.data.headD '/') = s0.data.headD '/') :
    normalize_work_dir env s0 = s0 := by
  have hne : s0.data.isEmpty = false := by
    rcases habs with h | h
    · rcases hd : s0.data with _ | ⟨c, r⟩
      · unfold pyStartsWith at h
        rw [hd] at h
        exact absurd h (by decide)
      · simp [hd]
    · rcases hd : s0.data with _ | ⟨c, r⟩
      · unfold winDriveMatch at h
        rw [hd] at h
        exact absurd h (by decide)
      · simp [hd]
  have hft : ¬(false = true) := by decide
  unfold normalize_work_dir
  dsimp only
  rw [hstrip, hne, htilde]
  simp only [Bool.false_eq_true, if_false]
  rw [hbs]
  have hisabs : (pyStartsWith s0 "/" || pyStartsWith s0 "//" ||
      pyStartsWith s0 "\\\\" || winDriveMatch s0) = true := by
    rcases habs with h | h
    · simp [h]
    · simp [h]
  rw [hisabs]
  simp only [Bool.not_true, Bool.false_eq_true, if_false]
  rw [hbs, hmnt]
  dsimp only
  rw [hmsys]
  dsimp only
  rw [hdd]
  simp only [Bool.false_eq_true, if_false]
  rw [hnp]
  by_cases hwd : winDriveMatch s0 = true
  · rw [if_pos hwd]
    rcases hd : s0.data with _ | ⟨c, rest⟩
    · rfl
    · rw [hd] at hlow
      have hlc : toLowerCh c = c := by simpa using hlow
      dsimp only
      rw [hlc, ← hd]
  · rw [if_neg hwd]

end CCB

namespace CCB

/-- C8 counterexample: normalization is not idempotent. `"/mnt//c/u"` is
absolute, matches neither drive pattern (the double slash blocks
`_MNT_DRIVE_RE`), and normalizes to `"/mnt/c/u"`; that output matches
`_MNT_DRIVE_RE` on a second run and becomes `"c:/u"`. -/
theorem C8_counterexample :
    normalize_work_dir envP "/mnt//c/u" = "/mnt/c/u" ∧
    normalize_work_dir envP (normalize_work_dir envP "/mnt//c/u") = "c:/u" ∧
    normalize_work_dir envP (normalize_work_dir envP "/mnt//c/u") ≠
      normalize_work_dir envP "/mnt//c/u" :=
  ⟨by decide, by decide, by decide⟩

/-- C8 amended: normalization is idempotent exactly on the runs whose first
output is a fixed point of every stage — no surrounding whitespace, no
leading `~`, no backslash, absolute, not `//`-prefixed, matching neither the
WSL `/mnt/<d>/` nor the MSYS `/<d>/` drive pattern, fixed by
`posixpath.normpath`, and with a lowercase first character; the two
counterexample runs fail the drive-pattern condition and the
whitespace condition respectively. -/
theorem C8_normalize_idempotent (env : PathEnv) (p : String)
    (hstrip : pyStrip (normalize_work_dir env p) = normalize_work_dir env p)
    (htilde : pyStartsWith (normalize_work_dir env p) "~" = false)
    (hbs : replBackslash (normalize_work_dir env p) = normalize_work_dir env p)
    (habs : pyStartsWith (normalize_work_dir env p) "/" = true ∨
      winDriveMatch (normalize_work_dir env p) = true)
    (hdd : pyStartsWith (normalize_work_dir env p) "//" = false)
    (hmnt : mntMatch (normalize_work_dir env p) = none)
    (hmsys : msysMatch (normalize_work_dir env p) = none)
    (hnp : posix_normpath (normalize_work_dir env p) = normalize_work_dir env p)
    (hlow : toLowerCh ((normalize_work_dir env p).data.headD '/') =
      (normalize_work_dir env p).data.headD '/') :
    normalize_work_dir env (normalize_work_dir env p) = normalize_work_dir env p :=
  normalize_fixed env (normalize_work_dir env p) hstrip htilde hbs habs hdd hmnt
    hmsys hnp hlow

/-- C8 amended witness: the run on `"/home//x/../alice"` (normal form
`"/home/alice"`) satisfies every stage-fixedness condition and is
idempotent. -/
theorem C8_normalize_idempotent_witness :
    normalize_work_dir envP (normalize_work_dir envP "/home//x/../alice") =
      normalize_work_dir envP "/home//x/../alice" :=
  C8_normalize_idempotent envP "/home//x/../alice" (by decide) (by decide) (by decide)
    (Or.inl (by decide)) (by decide) (by decide) (by decide) (by decide) (by decide)

end CCB
